import Mathlib

/-!
Verification development for the Formify form/survey backend.

This file gives a shallow embedding, in Lean 4, of the core algorithmic
subsystems of the repository:

* the dense-ordering operations on `Field.order_num` within a form
  (`src/forms/services/services.py`: `FieldService.create_field`,
  `FieldService.delete_field`, `FieldService.reorder_field`, and
  `src/forms/repositories/field_repository.py`);
* field-option validation (`FieldService.validate_field_options`, both the
  `src/forms/services/services.py` and the
  `src/backup/services/consolidated_services.py` variants);
* response submission (`ResponseService.submit_response`, both the
  `src/backup/services/response_service.py` and the
  `src/backup/services/consolidated_services.py` variants);
* access validation (`FormService.validate_form_access` from
  `src/backup/services/consolidated_services.py` and
  `ProcessService.validate_process_access` from
  `src/backup/services/process_service.py`);
* the report aggregator (`src/forms/services/reporting.py`), its scheduler
  (`src/forms/tasks.py`) and the live-report channel
  (`src/forms/consumers.py`, `src/forms/signals.py`);
* process workflow progress
  (`src/backup/api/v1/process_workflow_views.py`).

Modelling conventions: database rows become Lean structures, tables become
lists of rows (the list order of a table is immaterial; queries that depend
on row order sort explicitly, as the source does via `order_by`).  Python
numbers (int/float) are modelled as `ℚ`; Python `bool` values inside JSON
option payloads are folded into numbers, as Python's `isinstance(x, int)`
treats them.  Timestamps are modelled as `ℚ` with the day as unit, so
`timedelta(days = n)` is the rational `n`.  Fallible service methods return
`Except`; a returned error models a raised exception, with the state
unchanged (Django wraps the mutating operations in a transaction, so an
error leaves no partial write observable).  Python's stable `sorted` /
SQL `ORDER BY` is modelled by the stable `List.insertionSort`. -/

namespace Formify

/-! ## JSON-ish option values

`Field.options` is a JSON blob.  The validators only ever inspect: numbers,
strings, lists whose elements are probed for dict-ness and for the presence
of the keys `value`/`label`, and `None`.  `OptVal` models exactly these
observations.  Python booleans count as numbers for `isinstance(x, (int,
float))` and compare as 0/1, so they are folded into `.num`. -/

structure ChoiceItem where
  isDict : Bool
  hasValue : Bool
  hasLabel : Bool
deriving DecidableEq, Repr

inductive OptVal where
  | num (q : ℚ)
  | str (s : String)
  | list (cs : List ChoiceItem)
  | nullv
deriving DecidableEq, Repr

/-- Python truthiness of an option value (`if not choices: ...`). -/
def OptVal.truthy : OptVal → Bool
  | .num q => q ≠ 0
  | .str s => s ≠ ""
  | .list cs => ¬ cs.isEmpty
  | .nullv => false

/-- Model of `isinstance(v, (int, float))` together with the numeric value. -/
def OptVal.numVal : OptVal → Option ℚ
  | .num q => some q
  | _ => none

/-- Model of `options.get(key, default)` on the options dict. -/
def optGet (options : List (String × OptVal)) (key : String) (dflt : OptVal) :
    OptVal :=
  match options.find? (fun kv => kv.1 == key) with
  | some kv => kv.2
  | none => dflt

/-! ## Rows and service errors -/

/-- A `Field` row (`forms/models.py`).  `id` models the UUID primary key. -/
structure Fld where
  id : Nat
  label : String
  field_type : String
  is_required : Bool
  options : List (String × OptVal)
  order_num : Nat
deriving DecidableEq, Repr

/-- Errors raised by the service layer: Django's `Http404`
(`get_object_or_404`), `ValidationError`, and a Python-level `TypeError`
(e.g. comparing a string against `0`). -/
inductive SvcError where
  | notFound
  | validationError (msg : String)
  | typeError
deriving DecidableEq, Repr

/-! ## FieldService.validate_field_options (src/forms/services/services.py) -/

/-- Model of `FieldService.validate_field_options` from
`src/forms/services/services.py`, lines 216-285.  The four branches mirror
the source's `if/elif` chain; falling through every branch returns `True`.
A `.typeError` models Python raising `TypeError` when the source compares a
non-numeric value with a number or iterates a non-iterable. -/
def validateFieldOptions (field_type : String)
    (options : List (String × OptVal)) : Except SvcError Bool :=
  if field_type = "select" ∨ field_type = "radio" ∨ field_type = "checkbox" ∨
      field_type = "multiselect" then
    let choices := optGet options "choices" (.list [])
    if ¬ choices.truthy then
      .error (.validationError "requires choices in options")
    else
      match choices with
      | .list cs =>
        if cs.all (fun c => c.isDict && c.hasValue && c.hasLabel) then
          .ok true
        else
          .error (.validationError "Each choice must have value and label keys")
      | .str _ =>
        -- iterating a non-empty string yields characters, never dicts
        .error (.validationError "Each choice must have value and label keys")
      | _ => .error .typeError
  else if field_type = "rating" then
    let min_val := optGet options "min_value" (.num 1)
    let max_val := optGet options "max_value" (.num 5)
    let step := optGet options "step" (.num 1)
    match min_val.numVal, max_val.numVal with
    | some mn, some mx =>
      if mn ≥ mx then
        .error (.validationError "Rating min_value must be less than max_value")
      else
        match step.numVal with
        | some st =>
          if st ≤ 0 then
            .error (.validationError "Rating step must be greater than 0")
          else .ok true
        | none => .error .typeError
    | _, _ =>
      .error (.validationError "Rating min_value and max_value must be numbers")
  else if field_type = "file" then
    let allowed_types := optGet options "allowed_types" (.list [])
    let max_size := optGet options "max_size" .nullv
    if ¬ allowed_types.truthy then
      .error (.validationError "File field requires allowed_types in options")
    else
      match allowed_types with
      | .list _ =>
        if max_size ≠ .nullv ∧
            (max_size.numVal = none ∨ ∃ q, max_size.numVal = some q ∧ q ≤ 0) then
          .error (.validationError "max_size must be a positive number")
        else .ok true
      | _ => .error (.validationError "allowed_types must be a list")
  else if field_type = "number" then
    let min_val := optGet options "min_value" .nullv
    let max_val := optGet options "max_value" .nullv
    let step := optGet options "step" .nullv
    if min_val ≠ .nullv ∧ min_val.numVal = none then
      .error (.validationError "Number min_value must be a number")
    else if max_val ≠ .nullv ∧ max_val.numVal = none then
      .error (.validationError "Number max_value must be a number")
    else if min_val ≠ .nullv ∧ max_val ≠ .nullv then
      match min_val.numVal, max_val.numVal with
      | some mn, some mx =>
        if mn ≥ mx then
          .error (.validationError "Number min_value must be less than max_value")
        else if step ≠ .nullv ∧
            (step.numVal = none ∨ ∃ q, step.numVal = some q ∧ q ≤ 0) then
          .error (.validationError "Number step must be a positive number")
        else .ok true
      | _, _ => .error .typeError
    else if step ≠ .nullv ∧
        (step.numVal = none ∨ ∃ q, step.numVal = some q ∧ q ≤ 0) then
      .error (.validationError "Number step must be a positive number")
    else .ok true
  else .ok true

/-- The `FieldService.validate_field_options` variant from
`src/backup/services/consolidated_services.py`, lines 110-121.  It only
handles `select`/`checkbox`; every other field type (including `rating`)
returns `True` unchecked. -/
def consolidatedValidateFieldOptions (field_type : String)
    (options : List (String × OptVal)) : Except SvcError Bool :=
  if field_type = "select" ∨ field_type = "checkbox" then
    let choices := optGet options "choices" (.list [])
    if ¬ choices.truthy then
      .error (.validationError "requires choices in options")
    else
      match choices with
      | .list cs =>
        if cs.all (fun c => c.isDict && c.hasValue && c.hasLabel) then
          .ok true
        else
          .error (.validationError "Each choice must have value and label keys")
      | .str _ =>
        .error (.validationError "Each choice must have value and label keys")
      | _ => .error .typeError
  else .ok true

/-! ## Ordering operations (src/forms/services/services.py) -/

/-- Model of `Max('order_num')` over a form's fields, with `or 0` for the empty
aggregate (`create_field`, lines 33-37). -/
def maxOrder (fs : List Fld) : Nat :=
  fs.foldr (fun f m => max f.order_num m) 0

/-- Model of `Field.clean` from `forms/models.py` (called by `Field.save`):
select/checkbox fields must have truthy `choices`. -/
def modelClean (f : Fld) : Except SvcError Unit :=
  if (f.field_type = "select" ∨ f.field_type = "checkbox") ∧
      ¬ (optGet f.options "choices" .nullv).truthy then
    .error (.validationError "requires choices in options")
  else .ok ()

/-- The `field_data` payload of `create_field`.  `order_num = none` models
the key being absent from the dict. -/
structure FieldData where
  label : String
  field_type : String
  is_required : Bool
  options : List (String × OptVal)
  order_num : Option Nat
deriving DecidableEq, Repr

/-- The `order_num` assigned by `create_field`: the payload's own value, or
`max + 1` when the key is absent. -/
def fieldOrder (fs : List Fld) (d : FieldData) : Nat :=
  match d.order_num with
  | some o => o
  | none => maxOrder fs + 1

/-- The row `create_field` builds from the payload. -/
def mkField (fs : List Fld) (newId : Nat) (d : FieldData) : Fld :=
  { id := newId, label := d.label, field_type := d.field_type,
    is_required := d.is_required, options := d.options,
    order_num := fieldOrder fs d }

/-- Model of `FieldService.create_field` (`src/forms/services/services.py`, lines
13-53): default the order number to `max + 1`, validate options when a
field type is given (Python truthiness: the empty string skips
validation), then create the row (`Field.save` runs `Field.clean`).
`newId` stands for the fresh UUID the database generates. -/
def createField (fs : List Fld) (newId : Nat) (d : FieldData) :
    Except SvcError (List Fld) :=
  match (if d.field_type ≠ "" then validateFieldOptions d.field_type d.options
         else .ok true) with
  | .error e => .error e
  | .ok _ =>
    match modelClean (mkField fs newId d) with
    | .error e => .error e
    | .ok _ => .ok (fs ++ [mkField fs newId d])

/-- Ascending sort by `order_num` (`order_by('order_num')`). -/
def sortByOrder (l : List Fld) : List Fld :=
  l.insertionSort (fun a b => a.order_num ≤ b.order_num)

instance : IsTotal Fld (fun a b => a.order_num ≤ b.order_num) :=
  ⟨fun a b => Nat.le_total a.order_num b.order_num⟩

instance : IsTrans Fld (fun a b => a.order_num ≤ b.order_num) :=
  ⟨fun _ _ _ hab hbc => Nat.le_trans hab hbc⟩

/-- The renumbering loop of `delete_field` /
`FieldRepository.reorder_fields_after_delete`: the i-th field (in
`order_num` order) of the affected group gets `order_num = base + i`.
The source's intermediate parking at `999999 + i` exists only to dodge the
`(form, order_num)` uniqueness constraint inside the transaction; the
committed result is `base + i`. -/
def renumberFrom (base : Nat) : List Fld → List Fld
  | [] => []
  | g :: gs => { g with order_num := base } :: renumberFrom (base + 1) gs

/-- Model of the committed effect of
`FieldRepository.reorder_fields_after_delete`
(`src/forms/repositories/field_repository.py`, lines 29-46) on the table
`fs` of remaining siblings: every field with `order_num` greater than
`deleted_order` is renumbered to `deleted_order + i` in `order_num` order;
the rest are untouched. -/
def reorderFieldsAfterDelete (fs : List Fld) (deleted_order : Nat) : List Fld :=
  fs.filter (fun g => ¬ deleted_order < g.order_num) ++
    renumberFrom deleted_order
      (sortByOrder (fs.filter (fun g => deleted_order < g.order_num)))

/-- Model of `FieldService.delete_field` in
`src/forms/services/services.py` (lines 118-156) only: there the lookup,
the row deletion and the renumbering all run inside one
`transaction.atomic`, so the operation commits in a single step and no
intermediate state is ever observable — hence the one-step `Except`.  The
`delete_field` variant in `src/backup/services/consolidated_services.py`
commits the deletion in a separate transaction before renumbering; that
variant is modelled by `consolidatedDeleteField` below, which exposes the
intermediate state. -/
def deleteField (fs : List Fld) (fid : Nat) : Except SvcError (List Fld) :=
  match fs.find? (fun f => f.id == fid) with
  | none => .error .notFound
  | some f =>
    .ok (reorderFieldsAfterDelete (fs.filter (fun g => g.id ≠ fid)) f.order_num)

/-- Model of the `delete_field` variant in
`src/backup/services/consolidated_services.py` (lines 72-82): it reads
`deleted_order = field.order_num`, then `self.field_repository.delete(field)`
commits the row deletion on its own, and only afterwards does
`reorder_fields_after_delete` open its own `transaction.atomic` for the
renumbering — two separate transactions, not one.  The returned pair is
(table committed by the deletion, table committed by the renumbering):
between the two transactions, or if the second fails, the first component
is the observable state of the database. -/
def consolidatedDeleteField (fs : List Fld) (fid : Nat) :
    Except SvcError (List Fld × List Fld) :=
  match fs.find? (fun f => f.id == fid) with
  | none => .error .notFound
  | some f =>
    .ok (fs.filter (fun g => g.id ≠ fid),
      reorderFieldsAfterDelete (fs.filter (fun g => g.id ≠ fid)) f.order_num)

/-- The per-row effect of `reorder_field`'s shift phase: the moved field
takes `new_order`; any other field strictly between the old and the new
position (inclusive on the `new_order` side) shifts by one towards the
vacated slot; all remaining fields are untouched.  This is the committed
effect of the two `F('order_num') ± 1` bulk updates plus the final save of
the moved field. -/
def moveFn (fid : Nat) (old_order : Nat) (new_order : Int) (g : Fld) : Fld :=
  if g.id = fid then { g with order_num := new_order.toNat }
  else if new_order > (old_order : Int) ∧ old_order < g.order_num ∧
      (g.order_num : Int) ≤ new_order then
    { g with order_num := g.order_num - 1 }
  else if new_order < (old_order : Int) ∧ new_order ≤ (g.order_num : Int) ∧
      g.order_num < old_order then
    { g with order_num := g.order_num + 1 }
  else g

/-- Model of `FieldService.reorder_field` (`src/forms/services/services.py`, lines
158-214): validate `1 ≤ new_order ≤ count`, no-op when the order is
unchanged, otherwise park the moved field, shift the strictly-between
siblings by one, and set the moved field to `new_order`.  `new_order` is
`Int` because the request payload may be any integer.  The intermediate
parking at `999999` only dodges the uniqueness constraint inside the
transaction; the committed per-row effect is `moveFn`. -/
def reorderField (fs : List Fld) (fid : Nat) (new_order : Int) :
    Except SvcError (List Fld) :=
  match fs.find? (fun f => f.id == fid) with
  | none => .error .notFound
  | some f =>
    if new_order < 1 then
      .error (.validationError "Order number must be at least 1")
    else if new_order > (fs.length : Int) then
      .error (.validationError "Order number cannot exceed the field count")
    else if new_order = (f.order_num : Int) then .ok fs
    else .ok (fs.map (moveFn fid f.order_num new_order))

/-- The order-number permutation a successful move applies, as a function
on order values (`o` = old order, `m` = new order, both valid positions). -/
def moveShift (o m k : Nat) : Nat :=
  if k = o then m
  else if o < k ∧ k ≤ m then k - 1
  else if m ≤ k ∧ k < o then k + 1
  else k

/-! ## Operation sequences (claim C1) -/

/-- A fresh primary key, modelling the database generating a new UUID:
strictly larger than every id in the table. -/
def freshId (fs : List Fld) : Nat :=
  fs.foldr (fun f m => max f.id m) 0 + 1

/-- One client operation on a form's sibling set: insert a field without an
explicit order, delete a field, or move a field. -/
inductive OrdOp where
  | insert (d : FieldData)
  | del (fid : Nat)
  | move (fid : Nat) (new_order : Int)
deriving DecidableEq, Repr

/-- The table a service call leaves behind: the new table on success, the
old one when the transaction aborted with an error. -/
def commitOr (r : Except SvcError (List Fld)) (fs : List Fld) : List Fld :=
  match r with
  | .ok fs' => fs'
  | .error _ => fs

/-- Apply one operation; a raised error (validation failure, missing row)
leaves the table unchanged, as the enclosing transaction aborts. -/
def applyOrdOp (fs : List Fld) : OrdOp → List Fld
  | .insert d =>
    commitOr (createField fs (freshId fs) { d with order_num := none }) fs
  | .del fid => commitOr (deleteField fs fid) fs
  | .move fid n => commitOr (reorderField fs fid n) fs

def applyOrdOps (fs : List Fld) (ops : List OrdOp) : List Fld :=
  ops.foldl applyOrdOp fs

/-- Concrete fixture: the spec's scenario fields A(1), B(2), C(3). -/
def fldA : Fld :=
  { id := 1, label := "A", field_type := "text", is_required := false,
    options := [], order_num := 1 }

def fldB : Fld :=
  { id := 2, label := "B", field_type := "text", is_required := false,
    options := [], order_num := 2 }

def fldC : Fld :=
  { id := 3, label := "C", field_type := "text", is_required := false,
    options := [], order_num := 3 }

def exampleFields : List Fld := [fldA, fldB, fldC]

/-- The dense-ordering invariant: the multiset of `order_num` values of the
sibling set is exactly `{1, …, N}`, each value once. -/
def DenseOrders (fs : List Fld) : Prop :=
  List.Perm (fs.map (fun f => f.order_num)) (List.range' 1 fs.length)

instance (fs : List Fld) : Decidable (DenseOrders fs) :=
  List.decidablePerm _ _

/-- Primary keys are unique. -/
def UniqueIds (fs : List Fld) : Prop :=
  (fs.map (fun f => f.id)).Nodup

instance (fs : List Fld) : Decidable (UniqueIds fs) :=
  inferInstanceAs (Decidable (fs.map (fun f : Fld => f.id)).Nodup)

/-! ## Access validation (claim C7)

Rows for `Form` and `Process` as far as access control observes them.
`access_password` is `none` for a SQL `NULL`; Python compares `None ==
password` as `False` for any string. -/

structure FormR where
  id : Nat
  is_public : Bool
  access_password : Option String
  is_active : Bool
deriving DecidableEq, Repr

structure ProcR where
  id : Nat
  is_public : Bool
  access_password : Option String
  is_active : Bool
deriving DecidableEq, Repr

/-- Model of `Form.objects.get(id=form_id, is_active=True)`. -/
def findActiveForm (forms : List FormR) (fid : Nat) : Option FormR :=
  forms.find? (fun f => f.id == fid && f.is_active)

/-- Model of `FormRepository.validate_password`
(`src/backup/repositories/form_repository.py`, lines 53-59): look the
active form up again and string-compare the stored password. -/
def validatePassword (forms : List FormR) (fid : Nat) (password : String) :
    Bool :=
  match findActiveForm forms fid with
  | some form => form.access_password == some password
  | none => false

/-- Model of `FormService.validate_form_access`
(`src/backup/services/consolidated_services.py`, lines 184-200).
`password = none` models the `password=None` default; Python's
`if not password` is true for both `None` and the empty string. -/
def validateFormAccess (forms : List FormR) (fid : Nat)
    (password : Option String) : Except SvcError FormR :=
  match findActiveForm forms fid with
  | none => .error (.validationError "Form not found or inactive")
  | some form =>
    if form.is_public then .ok form
    else if password = none ∨ password = some "" then
      .error (.validationError "This form requires a password")
    else if ¬ validatePassword forms fid (password.getD "") then
      .error (.validationError "Invalid password")
    else .ok form

/-- Model of `ProcessService.validate_process_access`
(`src/backup/services/process_service.py`, lines 145-160): a boolean
check that looks the active process up and compares the stored
`access_password` with the supplied password.  It never consults
`is_public`. -/
def validateProcessAccess (procs : List ProcR) (pid : Nat)
    (password : String) : Bool :=
  match procs.find? (fun p => p.id == pid && p.is_active) with
  | some proc => proc.access_password == some password
  | none => false

/-! ## Response submission (claim C4) -/

structure FieldS where
  id : Nat
  label : String
  is_required : Bool
deriving DecidableEq, Repr

structure FormS where
  is_active : Bool
  fields : List FieldS
deriving DecidableEq, Repr

structure AnswerIn where
  field_id : Nat
  value : String
deriving DecidableEq, Repr

inductive SubmitError where
  | inactive
  | missingRequired (labels : List String)
  | invalidFields (ids : List Nat)
  | emptyAnswers
  | fieldNotInForm
deriving DecidableEq, Repr

structure SubmittedResponse where
  answers : List AnswerIn
deriving DecidableEq, Repr

/-- Model of `ResponseService.submit_response`
(`src/backup/services/response_service.py`, lines 18-72): check the form
is active, collect the labels of required fields with no submitted answer
(in field order), then collect answers referencing fields outside the
form, and only then atomically create the response with its answers. -/
def submitResponse (form : FormS) (answers_data : List AnswerIn) :
    Except SubmitError SubmittedResponse :=
  if ¬ form.is_active then .error .inactive
  else
    let missing := (form.fields.filter (fun f => f.is_required)).filterMap
      (fun f =>
        if answers_data.all (fun a => a.field_id ≠ f.id) then some f.label
        else none)
    if ¬ missing.isEmpty then .error (.missingRequired missing)
    else
      let invalid := answers_data.filterMap (fun a =>
        if form.fields.all (fun f => f.id ≠ a.field_id) then some a.field_id
        else none)
      if ¬ invalid.isEmpty then .error (.invalidFields invalid)
      else .ok { answers := answers_data }

/-- The `ResponseService.submit_response` variant from
`src/backup/services/consolidated_services.py`, lines 452-488: it checks
the form is active, requires at least one answer, and requires each
answer's field to belong to the form — but performs no required-field
check at all.  (The per-answer dict-shape check cannot fail in this typed
model.) -/
def consolidatedSubmitResponse (form : FormS) (answers_data : List AnswerIn) :
    Except SubmitError SubmittedResponse :=
  if ¬ form.is_active then .error .inactive
  else if answers_data.isEmpty then .error .emptyAnswers
  else
    match answers_data.find?
        (fun a => form.fields.all (fun f => f.id ≠ a.field_id)) with
    | some _ => .error .fieldNotInForm
    | none => .ok { answers := answers_data }

/-- Fixture: an active form with a required field A (id 1) and an optional
field B (id 2). -/
def c4form : FormS :=
  { is_active := true,
    fields := [{ id := 1, label := "A", is_required := true },
               { id := 2, label := "B", is_required := false }] }

/-! ## Report aggregation (claims C5, C6)

Rows observed by `ReportService` (`src/forms/services/reporting.py`).
Timestamps are rationals measured in days. -/

structure RespRec where
  id : Nat
  form_id : Nat
  submitted_at : ℚ
  submitted_by : Option String
deriving DecidableEq, Repr

structure AnsRec where
  id : Nat
  response_id : Nat
  field_id : Nat
  value : String
deriving DecidableEq, Repr

structure FormViewRec where
  id : Nat
  form_id : Nat
deriving DecidableEq, Repr

/-- The tables the report builders read.  `forms` maps form id to title;
`fieldLabels` maps field id to label. -/
structure ReportDB where
  forms : List (Nat × String)
  fieldLabels : List (Nat × String)
  responses : List RespRec
  answers : List AnsRec
  views : List FormViewRec
deriving DecidableEq, Repr

/-- Python `str.strip()` whitespace. -/
def isPyWS (c : Char) : Bool :=
  c = ' ' ∨ c = '\t' ∨ c = '\n' ∨ c = '\r' ∨
    c = Char.ofNat 11 ∨ c = Char.ofNat 12

/-- Python `value.strip()`. -/
def pyStrip (s : String) : String :=
  String.mk (((s.toList.dropWhile isPyWS).reverse.dropWhile isPyWS).reverse)

/-- Python `min(list)` / `max(list)` on a non-empty list. -/
def listMin (l : List ℚ) : Option ℚ :=
  match l with
  | [] => none
  | x :: xs => some (xs.foldl min x)

def listMax (l : List ℚ) : Option ℚ :=
  match l with
  | [] => none
  | x :: xs => some (xs.foldl max x)

/-- Model of `statistics.median`: middle element of the sorted data for odd length,
average of the two middle elements for even length. -/
def pyMedian (l : List ℚ) : Option ℚ :=
  match l with
  | [] => none
  | _ =>
    some (if l.length % 2 = 1 then
            (l.insertionSort (fun a b => a ≤ b)).getD (l.length / 2) 0
          else
            ((l.insertionSort (fun a b => a ≤ b)).getD (l.length / 2 - 1) 0 +
             (l.insertionSort (fun a b => a ≤ b)).getD (l.length / 2) 0) / 2)

/-- Distinct values in first-occurrence order, as `Counter` and
`defaultdict` record keys. -/
def firstSeenKeys {α : Type} [DecidableEq α] : List α → List α
  | [] => []
  | x :: xs => x :: (firstSeenKeys xs).filter (fun y => y ≠ x)

/-- Model of `Counter(text_vals).most_common(k)`: each distinct value with its
multiplicity, sorted by count descending (stable: first-encountered wins
ties), truncated to `k`. -/
def mostCommon (k : Nat) (vals : List String) : List (String × Nat) :=
  let items := (firstSeenKeys vals).map (fun v => (v, vals.count v))
  (items.insertionSort (fun a b => b.2 ≤ a.2)).take k

instance : IsTotal (String × Nat) (fun a b => b.2 ≤ a.2) :=
  ⟨fun a b => Nat.le_total b.2 a.2⟩

instance : IsTrans (String × Nat) (fun a b => b.2 ≤ a.2) :=
  ⟨fun _ _ _ hab hbc => Nat.le_trans hbc hab⟩

/-- The per-field summary dict; a `none` field models the key being absent
from the Python dict. -/
structure FieldSummary where
  count : Option Nat
  min : Option ℚ
  max : Option ℚ
  mean : Option ℚ
  median : Option ℚ
  top_values : Option (List (String × Nat))
deriving DecidableEq, Repr

/-- The stripped, non-empty answer values of a field. -/
def nonEmptyStripped (vals : List String) : List String :=
  (vals.map pyStrip).filter (fun v => v ≠ "")

/-- The per-field loop body of `ReportService._build_summary`
(`src/forms/services/reporting.py`, lines 97-127).  `parse` stands for the
Python builtin `float`: `parse v = some q` when `float(v)` succeeds with
value `q`, `none` when it raises. -/
def buildFieldSummary (parse : String → Option ℚ) (vals : List String) :
    FieldSummary :=
  let cleaned := nonEmptyStripped vals
  let numeric_vals := cleaned.filterMap parse
  let text_vals := cleaned.filter (fun v => (parse v).isNone)
  { count := if numeric_vals.isEmpty then none else some numeric_vals.length,
    min := if numeric_vals.isEmpty then none else listMin numeric_vals,
    max := if numeric_vals.isEmpty then none else listMax numeric_vals,
    mean := if numeric_vals.isEmpty then none
            else some (numeric_vals.sum / (numeric_vals.length : ℚ)),
    median := if numeric_vals.isEmpty then none else pyMedian numeric_vals,
    top_values := if text_vals.isEmpty then none
                  else some (mostCommon 10 text_vals) }

/-- Model of `Answer.objects.filter(response__form=form)`. -/
def answersOfForm (db : ReportDB) (form_id : Nat) : List AnsRec :=
  db.answers.filter (fun a =>
    db.responses.any (fun r => r.id == a.response_id && r.form_id == form_id))

/-- The values of one field among a form's answers, in answer order. -/
def fieldValues (ans : List AnsRec) (fid : Nat) : List String :=
  ans.filterMap (fun a => if a.field_id = fid then some a.value else none)

/-- The `by_field` grouping plus per-field summaries of `_build_summary`:
one entry per field that has at least one answer, keyed in
first-encounter order. -/
def buildSummaryFields (parse : String → Option ℚ) (ans : List AnsRec) :
    List (Nat × FieldSummary) :=
  (firstSeenKeys (ans.map (fun a => a.field_id))).map
    (fun fid => (fid, buildFieldSummary parse (fieldValues ans fid)))

def responsesOfForm (db : ReportDB) (form_id : Nat) : List RespRec :=
  db.responses.filter (fun r => r.form_id == form_id)

/-- The trailing-30-day daily response counts (`TruncDate` truncates the
day-valued timestamp to its integer day). -/
def daySeries (now : ℚ) (rs : List RespRec) : List (Int × Nat) :=
  let recent := rs.filter (fun r => now - 30 ≤ r.submitted_at)
  let days := (firstSeenKeys (recent.map (fun r => ⌊r.submitted_at⌋))).insertionSort
    (fun a b => a ≤ b)
  days.map (fun d => (d, recent.countP (fun r => ⌊r.submitted_at⌋ == d)))

structure SummaryPayload where
  form_id : Nat
  form_title : String
  total_responses : Nat
  total_viewers : Nat
  last_response_at : Option ℚ
  responses_per_day : List (Int × Nat)
  fields : List (Nat × FieldSummary)
deriving DecidableEq, Repr

/-- Model of `ReportService._build_summary` (`src/forms/services/reporting.py`,
lines 72-141). -/
def buildSummary (parse : String → Option ℚ) (now : ℚ) (db : ReportDB)
    (form_id : Nat) (title : String) : SummaryPayload :=
  let qs := responsesOfForm db form_id
  { form_id := form_id,
    form_title := title,
    total_responses := qs.length,
    total_viewers := (db.views.filter (fun v => v.form_id == form_id)).length,
    last_response_at := listMax (qs.map (fun r => r.submitted_at)),
    responses_per_day := daySeries now qs,
    fields := buildSummaryFields parse (answersOfForm db form_id) }

structure DetailedAnswer where
  field_id : Nat
  field_label : Option String
  value : String
deriving DecidableEq, Repr

structure DetailedEntry where
  response_id : Nat
  submitted_at : ℚ
  submitted_by : Option String
  answers : List DetailedAnswer
deriving DecidableEq, Repr

structure DetailedPayload where
  form_id : Nat
  form_title : String
  responses : List DetailedEntry
deriving DecidableEq, Repr

/-- Model of `ReportService._build_detailed` (`src/forms/services/reporting.py`,
lines 143-167): one entry per response, newest first. -/
def buildDetailed (db : ReportDB) (form_id : Nat) (title : String) :
    DetailedPayload :=
  let latest := (responsesOfForm db form_id).insertionSort
    (fun a b => b.submitted_at ≤ a.submitted_at)
  { form_id := form_id,
    form_title := title,
    responses := latest.map (fun r =>
      { response_id := r.id,
        submitted_at := r.submitted_at,
        submitted_by := r.submitted_by,
        answers := (db.answers.filter (fun a => a.response_id == r.id)).map
          (fun a =>
            { field_id := a.field_id,
              field_label := (db.fieldLabels.find?
                (fun kv => kv.1 == a.field_id)).map (fun kv => kv.2),
              value := a.value }) }) }

inductive ReportPayload where
  | summary (p : SummaryPayload)
  | detailed (p : DetailedPayload)
deriving DecidableEq, Repr

/-- Model of `ReportService.generate` (`src/forms/services/reporting.py`, lines
34-40): dispatch on the report type; unknown types raise `ValueError`. -/
def generateReport (parse : String → Option ℚ) (now : ℚ) (db : ReportDB)
    (form_id : Nat) (title : String) (typ : String) :
    Except String ReportPayload :=
  if typ = "summary" then .ok (.summary (buildSummary parse now db form_id title))
  else if typ = "detailed" then .ok (.detailed (buildDetailed db form_id title))
  else .error "Unknown report type"

/-! ## Live report channel (claim C6) -/

/-- The per-connection state of `FormReportConsumer`: the form id from the
URL and the report type from the `?type=` query parameter at connect. -/
structure Subscriber where
  form_id : Nat
  report_type : String
deriving DecidableEq, Repr

/-- A `report.update` group event as dispatched to consumers. -/
structure GroupEvent where
  form_id : Nat
  report_type : String
deriving DecidableEq, Repr

/-- Model of `signals._broadcast_form` (`src/forms/signals.py`, lines 9-17): the
post-commit hooks for `Response`/`Answer` changes always broadcast with
the default `report_type = "summary"`. -/
def broadcastForm (form_id : Nat) : GroupEvent :=
  { form_id := form_id, report_type := "summary" }

/-- An outbound websocket message; `msg_type` models the `type` key. -/
structure OutMessage where
  msg_type : String
  payload : ReportPayload
deriving DecidableEq, Repr

/-- Model of `FormReportConsumer._build_payload` (`src/forms/consumers.py`, lines
58-66): look the form up and run `ReportService.generate` for the given
type. -/
def buildPayload (parse : String → Option ℚ) (now : ℚ) (db : ReportDB)
    (form_id : Nat) (report_type : String) : Except String ReportPayload :=
  match db.forms.find? (fun kv => kv.1 == form_id) with
  | none => .error "Form does not exist"
  | some kv => generateReport parse now db form_id kv.2 report_type

/-- Model of `FormReportConsumer.report_update` (`src/forms/consumers.py`, lines
42-44): recompute the payload for the report type carried by the EVENT
and send `{type: "update", payload}` to this subscriber.  `none` models
the handler raising (missing form / unknown type), in which case nothing
is sent. -/
def reportUpdate (parse : String → Option ℚ) (now : ℚ) (db : ReportDB)
    (_c : Subscriber) (e : GroupEvent) : Option OutMessage :=
  match buildPayload parse now db e.form_id e.report_type with
  | .ok p => some { msg_type := "update", payload := p }
  | .error _ => none

/-- Model of `FormReportConsumer.receive_json` for `{action: "refresh"}`
(`src/forms/consumers.py`, lines 37-40): the client-initiated pull DOES
use the subscriber's connect-time report type. -/
def receiveRefresh (parse : String → Option ℚ) (now : ℚ) (db : ReportDB)
    (c : Subscriber) : Option OutMessage :=
  match buildPayload parse now db c.form_id c.report_type with
  | .ok p => some { msg_type := "refresh", payload := p }
  | .error _ => none

/-- Fixture database for the live-channel claims: one form, no data. -/
def c6db : ReportDB :=
  { forms := [(1, "F")], fieldLabels := [], responses := [], answers := [],
    views := [] }

/-! ## Report scheduling (claim C8) -/

structure ReportRec where
  id : Nat
  form_id : Nat
  rtype : String
  schedule_type : String
  delivery_method : String
  next_run : Option ℚ
  is_active : Bool
deriving DecidableEq, Repr

/-- Model of `ReportService.compute_initial_next_run`
(`src/forms/services/reporting.py`, lines 214-224). -/
def computeInitialNextRun (now : ℚ) (r : ReportRec) : Option ℚ :=
  if r.schedule_type = "manual" then none
  else if r.schedule_type = "weekly" then some (now + 7)
  else if r.schedule_type = "monthly" then some (now + 30)
  else none

/-- Model of `ReportService._bump_next_run` (`src/forms/services/reporting.py`,
lines 226-232). -/
def bumpNextRun (now : ℚ) (r : ReportRec) : ReportRec :=
  if r.schedule_type = "manual" then r
  else
    match computeInitialNextRun now r with
    | some nxt => { r with next_run := some nxt }
    | none => r

/-- The effect of `ReportService.run_once` on the report row
(`src/forms/services/reporting.py`, lines 50-68): generation is read-only
and delivery external; the row mutation is the `next_run` bump, applied
after every execution. -/
def runOnce (now : ℚ) (r : ReportRec) : ReportRec :=
  bumpNextRun now r

/-- The due filter of `run_due_reports` (`src/forms/tasks.py`, lines
7-17): `is_active=True, next_run__isnull=False, next_run__lte=now`. -/
def isDue (now : ℚ) (r : ReportRec) : Bool :=
  r.is_active &&
    (match r.next_run with
     | some t => t ≤ now
     | none => false)

/-- Model of `run_due_reports` (`src/forms/tasks.py`): run every due report once
with the sweep's single `now`, and return the table afterwards, the due
list, and the count `{"ran": ran}`. -/
def runDueReports (now : ℚ) (reports : List ReportRec) :
    List ReportRec × List ReportRec × Nat :=
  let due := reports.filter (isDue now)
  (reports.map (fun r => if isDue now r then runOnce now r else r),
   due, due.length)

/-! ## Process workflow progress (claim C10) -/

structure StepR where
  id : Nat
  process_id : Nat
  form_id : Nat
deriving DecidableEq, Repr

/-- Model of `ProcessWorkflowViewSet._is_step_completed`
(`src/backup/api/v1/process_workflow_views.py`, lines 274-277): a step is
completed when any response exists for its target form. -/
def isStepCompleted (responses : List RespRec) (s : StepR) : Bool :=
  responses.any (fun r => r.form_id == s.form_id)

/-- Python `round(q)` to an integer, rounding half to even. -/
def roundHalfEven (q : ℚ) : Int :=
  let f := ⌊q⌋
  let frac := q - (f : ℚ)
  if frac < 1 / 2 then f
  else if frac > 1 / 2 then f + 1
  else if f % 2 = 0 then f else f + 1

/-- Python `round(q, 2)`. -/
def pyRound2 (q : ℚ) : ℚ :=
  (roundHalfEven (q * 100) : ℚ) / 100

structure ProgressOut where
  completed_steps : Nat
  total_steps : Nat
  percentage : ℚ
  is_complete : Bool
deriving DecidableEq, Repr

/-- The progress block of `ProcessWorkflowViewSet.get_process_progress`
(`src/backup/api/v1/process_workflow_views.py`, lines 250-269). -/
def processProgress (responses : List RespRec) (steps : List StepR) :
    ProgressOut :=
  let completed := (steps.filter (isStepCompleted responses)).length
  let total := steps.length
  { completed_steps := completed,
    total_steps := total,
    percentage := pyRound2
      (if total > 0 then (completed : ℚ) / (total : ℚ) * 100 else 0),
    is_complete := completed == total }

/-- Model of `ProcessWorkflowViewSet._is_process_complete`
(`src/backup/api/v1/process_workflow_views.py`, lines 287-290). -/
def isProcessComplete (responses : List RespRec) (steps : List StepR) :
    Bool :=
  steps.all (isStepCompleted responses)

/-! ## Specification-side statistics predicates (claim C5) -/

/-- What the claim demands of the numeric part of a field summary, stated
against the list `nums` of successfully parsed values: the `count`,
`min`, `max`, `mean` and `median` keys are present exactly when some
numeric value exists, and then carry the count, a least member, a
greatest member, the value whose product with the count is the sum, and
the middle of a sorted arrangement. -/
def NumericStatsOk (nums : List ℚ) (s : FieldSummary) : Prop :=
  (nums = [] → s.count = none ∧ s.min = none ∧ s.max = none ∧
    s.mean = none ∧ s.median = none) ∧
  (nums ≠ [] →
    s.count = some nums.length ∧
    (∃ m, s.min = some m ∧ m ∈ nums ∧ ∀ x ∈ nums, m ≤ x) ∧
    (∃ m, s.max = some m ∧ m ∈ nums ∧ ∀ x ∈ nums, x ≤ m) ∧
    (∃ mu, s.mean = some mu ∧ mu * (nums.length : ℚ) = nums.sum) ∧
    (∃ md, s.median = some md ∧ ∃ sorted, List.Perm sorted nums ∧
      List.Sorted (fun a b : ℚ => a ≤ b) sorted ∧
      md = (if nums.length % 2 = 1 then sorted.getD (nums.length / 2) 0
            else (sorted.getD (nums.length / 2 - 1) 0 +
                  sorted.getD (nums.length / 2) 0) / 2)))

/-- What the claim demands of the text part: the `top_values` key is
present exactly when a text value exists, and then lists at most ten
distinct values with their multiplicities, most frequent first, such
that no unlisted value is more frequent than a listed one. -/
def TopValuesOk (texts : List String) (s : FieldSummary) : Prop :=
  (texts = [] → s.top_values = none) ∧
  (texts ≠ [] → ∃ tv, s.top_values = some tv ∧
    tv.length = min 10 (firstSeenKeys texts).length ∧
    (tv.map Prod.fst).Nodup ∧
    (∀ p ∈ tv, p.1 ∈ texts ∧ p.2 = texts.count p.1) ∧
    List.Sorted (fun a b : String × Nat => b.2 ≤ a.2) tv ∧
    (∀ w ∈ texts, w ∉ tv.map Prod.fst → ∀ p ∈ tv, texts.count w ≤ p.2))

/-- A concrete stand-in for the Python `float` builtin on the witness
inputs: parses exactly the decimal literals appearing in the spec's
examples. -/
def exampleParse (s : String) : Option ℚ :=
  if s = "3" then some 3
  else if s = "5" then some 5
  else if s = "4" then some 4
  else none

/-- Fixture answers: field 10 received "3", "5", "4"; field 20 received
"red", "blue", "red". -/
def c5answers : List AnsRec :=
  [{ id := 1, response_id := 1, field_id := 10, value := "3" },
   { id := 2, response_id := 1, field_id := 10, value := "5" },
   { id := 3, response_id := 1, field_id := 10, value := "4" },
   { id := 4, response_id := 1, field_id := 20, value := "red" },
   { id := 5, response_id := 1, field_id := 20, value := "blue" },
   { id := 6, response_id := 1, field_id := 20, value := "red" }]

/-! ## Basic lemmas about the ordering model -/

theorem le_foldr_max (g : Fld → Nat) (fs : List Fld) :
    ∀ f ∈ fs, g f ≤ fs.foldr (fun f m => max (g f) m) 0 := by
  induction fs with
  | nil => intro f hf; cases hf
  | cons a t ih =>
    intro f hf
    rcases List.mem_cons.mp hf with hf | hf
    · subst hf; simp [List.foldr]
    · exact le_trans (ih f hf) (by simp [List.foldr])

theorem foldr_max_le (g : Fld → Nat) (fs : List Fld) (b : Nat)
    (h : ∀ f ∈ fs, g f ≤ b) : fs.foldr (fun f m => max (g f) m) 0 ≤ b := by
  induction fs with
  | nil => simp
  | cons a t ih =>
    simp only [List.foldr, max_le_iff]
    exact ⟨h a (by simp), ih (fun f hf => h f (List.mem_cons_of_mem a hf))⟩

/-- A list of naturals is a permutation of `{1, …, N}` iff it has length
`N`, no duplicates, and all members lie in `[1, N]`. -/
theorem perm_range'_iff (l : List Nat) (N : Nat) (hlen : l.length = N) :
    List.Perm l (List.range' 1 N) ↔
      l.Nodup ∧ ∀ k ∈ l, 1 ≤ k ∧ k ≤ N := by
  constructor
  · intro hp
    refine ⟨hp.symm.nodup (List.nodup_range' 1 N), fun k hk => ?_⟩
    have := (hp.mem_iff).mp hk
    rw [List.mem_range'_1] at this
    omega
  · rintro ⟨hnd, hb⟩
    have hsub : l ⊆ List.range' 1 N := by
      intro k hk
      rw [List.mem_range'_1]
      have := hb k hk
      omega
    refine (hnd.subperm hsub).perm_of_length_le ?_
    rw [List.length_range']
    omega

theorem maxOrder_of_dense (fs : List Fld) (h : DenseOrders fs) :
    maxOrder fs = fs.length := by
  have hub : ∀ f ∈ fs, f.order_num ≤ fs.length := by
    intro f hf
    have hmem : f.order_num ∈ List.range' 1 fs.length :=
      (h.mem_iff).mp (List.mem_map_of_mem _ hf)
    rw [List.mem_range'_1] at hmem
    omega
  have hle : maxOrder fs ≤ fs.length := foldr_max_le _ fs _ hub
  rcases Nat.eq_zero_or_pos fs.length with h0 | hpos
  · have : fs = [] := List.length_eq_zero.mp h0
    subst this
    simp [maxOrder]
  · have hmem : fs.length ∈ fs.map (fun f => f.order_num) := by
      refine (h.mem_iff).mpr ?_
      rw [List.mem_range'_1]
      omega
    rcases List.mem_map.mp hmem with ⟨f, hf, hfo⟩
    have h2 : f.order_num ≤ maxOrder fs :=
      le_foldr_max (fun f => f.order_num) fs f hf
    omega

theorem renumberFrom_map_order (b : Nat) (l : List Fld) :
    (renumberFrom b l).map (fun f => f.order_num) = List.range' b l.length := by
  induction l generalizing b with
  | nil => simp [renumberFrom]
  | cons g t ih => simp [renumberFrom, ih, List.range']

theorem renumberFrom_map_id (b : Nat) (l : List Fld) :
    (renumberFrom b l).map (fun f => f.id) = l.map (fun f => f.id) := by
  induction l generalizing b with
  | nil => rfl
  | cons g t ih => simp [renumberFrom, ih]

theorem renumberFrom_length (b : Nat) (l : List Fld) :
    (renumberFrom b l).length = l.length := by
  have := congrArg List.length (renumberFrom_map_order b l)
  simpa using this

/-- When the affected group's orders are exactly `b+1, …, b+len` in list
order, the renumbering loop decrements each row's order by one. -/
theorem renumberFrom_mem_of_map_order (b : Nat) (l : List Fld)
    (horders : l.map (fun f => f.order_num) = List.range' (b + 1) l.length) :
    ∀ g ∈ l, { g with order_num := g.order_num - 1 } ∈ renumberFrom b l := by
  induction l generalizing b with
  | nil => intro g hg; cases hg
  | cons g0 t ih =>
    intro g hg
    simp only [List.map, List.length_cons, List.range'] at horders
    have h0 : g0.order_num = b + 1 := by
      have := congrArg (fun l => l.headI) horders
      simpa using this
    have ht : t.map (fun f => f.order_num) = List.range' (b + 2) t.length := by
      have := congrArg List.tail horders
      simpa using this
    rcases List.mem_cons.mp hg with hg | hg
    · subst hg
      simp only [renumberFrom]
      have hb : g.order_num - 1 = b := by omega
      rw [hb]
      exact List.mem_cons_self _ _
    · simp only [renumberFrom, List.mem_cons]
      right
      exact ih (b + 1) ht g hg

/-- Decomposing a table at the row `find?` returns, for unique ids. -/
theorem perm_cons_filter_of_find (fs : List Fld) (fid : Nat) (f : Fld)
    (hu : UniqueIds fs) (hf : fs.find? (fun g => g.id == fid) = some f) :
    List.Perm fs (f :: fs.filter (fun g => g.id ≠ fid)) := by
  induction fs with
  | nil => cases hf
  | cons a t ih =>
    by_cases ha : a.id = fid
    · rw [List.find?_cons_of_pos _ (by simpa using ha)] at hf
      injection hf with hf
      subst hf
      have hnone : ∀ g ∈ t, g.id ≠ fid := by
        intro g hg hgid
        have : a.id ∈ t.map (fun f => f.id) := by
          rw [ha, ← hgid]
          exact List.mem_map_of_mem _ hg
        exact (List.nodup_cons.mp hu).1 this
      have hfil : t.filter (fun g => g.id ≠ fid) = t :=
        List.filter_eq_self.mpr (by
          intro g hg
          simpa using hnone g hg)
      rw [List.filter_cons_of_neg (by simpa using ha), hfil]
    · rw [List.find?_cons_of_neg _ (by simpa using ha)] at hf
      have hu' : UniqueIds t := (List.nodup_cons.mp hu).2
      have hperm := ih hu' hf
      rw [List.filter_cons_of_pos (by simpa using ha)]
      exact List.Perm.trans (hperm.cons a) (List.Perm.swap f a _)

theorem range'_split_at (d N : Nat) (h1 : 1 ≤ d) (h2 : d ≤ N) :
    List.range' 1 N = List.range' 1 (d - 1) ++ d :: List.range' (d + 1) (N - d) := by
  have e1 := List.range'_append 1 (d - 1) (N - (d - 1)) 1
  have ha : 1 + 1 * (d - 1) = d := by omega
  have hb : N - (d - 1) + (d - 1) = N := by omega
  rw [ha, hb] at e1
  have hc : N - (d - 1) = (N - d) + 1 := by omega
  rw [hc] at e1
  have e2 : List.range' d ((N - d) + 1) = d :: List.range' (d + 1) (N - d) := by
    have := List.range'_append d 1 (N - d) 1
    simp only [List.range'_one, Nat.one_mul] at this
    rw [← this]
    rfl
  rw [e2] at e1
  exact e1.symm

/-! ## Insert preserves density -/

theorem createField_ok_eq (fs : List Fld) (newId : Nat) (d : FieldData)
    (fs' : List Fld) (hok : createField fs newId d = .ok fs') :
    fs' = fs ++ [mkField fs newId d] := by
  unfold createField at hok
  split at hok
  · cases hok
  · split at hok
    · cases hok
    · injection hok with hok
      exact hok.symm

theorem freshId_not_mem (fs : List Fld) :
    freshId fs ∉ fs.map (fun f => f.id) := by
  intro hmem
  rcases List.mem_map.mp hmem with ⟨f, hf, hid⟩
  have h2 : f.id ≤ fs.foldr (fun f m => max f.id m) 0 :=
    le_foldr_max (fun f => f.id) fs f hf
  have h3 : f.id = freshId fs := hid
  unfold freshId at h3
  omega

theorem append_one_dense (fs : List Fld) (f : Fld) (hd : DenseOrders fs)
    (hord : f.order_num = fs.length + 1) : DenseOrders (fs ++ [f]) := by
  unfold DenseOrders at hd ⊢
  have hmap : (fs ++ [f]).map (fun g => g.order_num) =
      fs.map (fun g => g.order_num) ++ [f.order_num] := by simp
  have hlen : (fs ++ [f]).length = fs.length + 1 := by simp
  have hsplit := List.range'_append 1 fs.length 1 1
  simp only [List.range'_one, Nat.one_mul] at hsplit
  rw [Nat.add_comm 1 fs.length] at hsplit
  rw [hmap, hlen, ← hsplit]
  refine List.Perm.append hd ?_
  rw [hord]

/-! ## Delete: renumbering specification -/

theorem deleteField_ok_spec (fs : List Fld) (fid : Nat) (f : Fld)
    (fs' : List Fld) (hu : UniqueIds fs) (hd : DenseOrders fs)
    (hf : fs.find? (fun g => g.id == fid) = some f)
    (hok : deleteField fs fid = .ok fs') :
    DenseOrders fs' ∧ UniqueIds fs' ∧ fs'.length = fs.length - 1 ∧
      ∀ g ∈ fs, g.id ≠ fid →
        { g with order_num :=
            if f.order_num < g.order_num then g.order_num - 1
            else g.order_num } ∈ fs' := by
  unfold deleteField at hok
  rw [hf] at hok
  injection hok with hok
  unfold reorderFieldsAfterDelete at hok
  set d := f.order_num with hdd
  set N := fs.length with hNN
  set rest := fs.filter (fun g => g.id ≠ fid) with hrest
  set above := rest.filter (fun g => d < g.order_num) with habove
  set untouched := rest.filter (fun g => ¬ d < g.order_num) with huntouched
  -- decompose the table at the deleted row
  have hdp : List.Perm (fs.map (fun g => g.order_num)) (List.range' 1 N) := hd
  have hperm : List.Perm fs (f :: rest) := perm_cons_filter_of_find fs fid f hu hf
  have hcons : List.Perm (d :: rest.map (fun g => g.order_num)) (List.range' 1 N) := by
    have := (hperm.map (fun g => g.order_num)).symm.trans hdp
    simpa using this
  have hdrange : 1 ≤ d ∧ d ≤ N := by
    have hmem := (hcons.mem_iff).mp (List.mem_cons_self d _)
    rw [List.mem_range'_1] at hmem
    omega
  have hsplit := range'_split_at d N hdrange.1 hdrange.2
  have hrestperm : List.Perm (rest.map (fun g => g.order_num))
      (List.range' 1 (d - 1) ++ List.range' (d + 1) (N - d)) := by
    refine List.Perm.cons_inv (a := d) ?_
    exact (hcons.trans (by rw [hsplit]; exact List.perm_middle))
  -- the two halves of the surviving rows
  have hmap_untouched : untouched.map (fun g => g.order_num) =
      List.filter (fun k => ¬ d < k) (rest.map (fun g => g.order_num)) :=
    (List.filter_map (p := fun k => decide (¬ d < k))
      (fun g : Fld => g.order_num) rest).symm
  have hmap_above : above.map (fun g => g.order_num) =
      List.filter (fun k => d < k) (rest.map (fun g => g.order_num)) :=
    (List.filter_map (p := fun k => decide (d < k))
      (fun g : Fld => g.order_num) rest).symm
  have hfilter_lo : List.filter (fun k => ¬ d < k)
      (List.range' 1 (d - 1) ++ List.range' (d + 1) (N - d)) =
      List.range' 1 (d - 1) := by
    rw [List.filter_append]
    have h1 : List.filter (fun k => ¬ d < k) (List.range' 1 (d - 1)) =
        List.range' 1 (d - 1) :=
      List.filter_eq_self.mpr (by
        intro a ha
        rw [List.mem_range'_1] at ha
        simpa using by omega)
    have h2 : List.filter (fun k => ¬ d < k) (List.range' (d + 1) (N - d)) = [] :=
      List.filter_eq_nil_iff.mpr (by
        intro a ha
        rw [List.mem_range'_1] at ha
        simpa using by omega)
    rw [h1, h2, List.append_nil]
  have hfilter_hi : List.filter (fun k => d < k)
      (List.range' 1 (d - 1) ++ List.range' (d + 1) (N - d)) =
      List.range' (d + 1) (N - d) := by
    rw [List.filter_append]
    have h1 : List.filter (fun k => d < k) (List.range' 1 (d - 1)) = [] :=
      List.filter_eq_nil_iff.mpr (by
        intro a ha
        rw [List.mem_range'_1] at ha
        simpa using by omega)
    have h2 : List.filter (fun k => d < k) (List.range' (d + 1) (N - d)) =
        List.range' (d + 1) (N - d) :=
      List.filter_eq_self.mpr (by
        intro a ha
        rw [List.mem_range'_1] at ha
        simpa using by omega)
    rw [h1, h2, List.nil_append]
  have hperm_untouched : List.Perm (untouched.map (fun g => g.order_num))
      (List.range' 1 (d - 1)) := by
    rw [hmap_untouched, ← hfilter_lo]
    exact hrestperm.filter _
  have hperm_above : List.Perm (above.map (fun g => g.order_num))
      (List.range' (d + 1) (N - d)) := by
    rw [hmap_above, ← hfilter_hi]
    exact hrestperm.filter _
  -- the sorted group is order-wise exactly the interval above d
  have hsortperm : List.Perm (sortByOrder above) above :=
    List.perm_insertionSort _ above
  have hsorted_orders : List.Sorted (fun a b => a ≤ b)
      ((sortByOrder above).map (fun g => g.order_num)) := by
    rw [List.Sorted, List.pairwise_map]
    exact List.sorted_insertionSort (fun a b => a.order_num ≤ b.order_num) above
  have hR2lt : List.Sorted (fun a b => a < b)
      (List.range' (d + 1) (N - d)) :=
    List.pairwise_lt_range' (d + 1) (N - d)
  have hR2sorted : List.Sorted (fun a b => a ≤ b)
      (List.range' (d + 1) (N - d)) := hR2lt.le_of_lt
  have hsorted_eq : (sortByOrder above).map (fun g => g.order_num) =
      List.range' (d + 1) (N - d) :=
    List.eq_of_perm_of_sorted
      ((hsortperm.map (fun g => g.order_num)).trans hperm_above)
      hsorted_orders hR2sorted
  have hlen_above : (sortByOrder above).length = N - d := by
    have := congrArg List.length hsorted_eq
    simpa using this
  have hlen_untouched : untouched.length = d - 1 := by
    have := hperm_untouched.length_eq
    simpa using this
  -- density of the result
  have hordmap : fs'.map (fun g => g.order_num) =
      untouched.map (fun g => g.order_num) ++
        List.range' d (sortByOrder above).length := by
    rw [← hok, List.map_append, renumberFrom_map_order]
  have hlen' : fs'.length = N - 1 := by
    rw [← hok]
    simp only [List.length_append, renumberFrom_length]
    omega
  have hdense' : DenseOrders fs' := by
    unfold DenseOrders
    rw [hordmap, hlen', hlen_above]
    have happ := List.range'_append 1 (d - 1) (N - d) 1
    have he1 : 1 + 1 * (d - 1) = d := by omega
    have he2 : (N - d) + (d - 1) = N - 1 := by omega
    rw [he1, he2] at happ
    rw [← happ]
    exact List.Perm.append hperm_untouched (List.Perm.refl _)
  -- uniqueness of ids in the result
  have hid_rest : List.Perm (fs'.map (fun g => g.id))
      (rest.map (fun g => g.id)) := by
    rw [← hok, List.map_append, renumberFrom_map_id]
    have h1 : List.Perm ((sortByOrder above).map (fun g => g.id))
        (above.map (fun g => g.id)) := hsortperm.map _
    have h2 : List.Perm (untouched.map (fun g => g.id) ++ above.map (fun g => g.id))
        (rest.map (fun g => g.id)) := by
      rw [← List.map_append]
      refine List.Perm.map _ ?_
      refine List.Perm.trans (List.perm_append_comm) ?_
      have := List.filter_append_perm (fun g => d < g.order_num) rest
      refine List.Perm.trans ?_ this
      refine List.Perm.append_left _ ?_
      rw [huntouched]
      refine List.Perm.of_eq ?_
      apply List.filter_congr
      intro g hg
      simp only [decide_not]
    exact List.Perm.trans (List.Perm.append_left _ h1) h2
  have hu' : UniqueIds fs' := by
    have hu0 : (fs.map (fun g => g.id)).Nodup := hu
    have hrest_nodup : (rest.map (fun g => g.id)).Nodup :=
      ((List.filter_sublist fs).map (fun g => g.id)).nodup hu0
    exact hid_rest.symm.nodup hrest_nodup
  refine ⟨hdense', hu', by rw [hlen', hNN], ?_⟩
  -- the survivors clause
  intro g hg hgid
  have hg_rest : g ∈ rest := by
    rw [hrest, List.mem_filter]
    exact ⟨hg, by simpa using hgid⟩
  by_cases hcase : d < g.order_num
  · have hg_above : g ∈ above := by
      rw [habove, List.mem_filter]
      exact ⟨hg_rest, by simpa using hcase⟩
    have hg_sorted : g ∈ sortByOrder above := (hsortperm.mem_iff).mpr hg_above
    have hmem := renumberFrom_mem_of_map_order d (sortByOrder above)
      (by rw [hsorted_eq, hlen_above]) g hg_sorted
    rw [if_pos hcase, ← hok]
    exact List.mem_append_right _ hmem
  · have hg_untouched : g ∈ untouched := by
      rw [huntouched, List.mem_filter]
      exact ⟨hg_rest, by simpa using hcase⟩
    rw [if_neg hcase, ← hok]
    exact List.mem_append_left _ hg_untouched

/-! ## Move preserves density -/

theorem moveFn_id (fid : Nat) (o : Nat) (n : Int) (g : Fld) :
    (moveFn fid o n g).id = g.id := by
  unfold moveFn
  split_ifs <;> rfl

theorem moveFn_order (fid : Nat) (o : Nat) (n : Int) (hn : 1 ≤ n) (g : Fld)
    (hgo : g.id = fid → g.order_num = o) (hog : g.order_num = o → g.id = fid) :
    (moveFn fid o n g).order_num = moveShift o n.toNat g.order_num := by
  unfold moveFn moveShift
  by_cases hid : g.id = fid
  · have := hgo hid
    rw [if_pos hid, if_pos this]
  · rw [if_neg hid]
    have hko : ¬ g.order_num = o := fun h => hid (hog h)
    rw [if_neg hko]
    split_ifs <;> first | rfl | omega

theorem moveShift_mem_range (o m : Nat) (ho : 1 ≤ o) (hoN : o ≤ N)
    (_hm : 1 ≤ m) (hmN : m ≤ N) (k : Nat) (hk : 1 ≤ k) (hkN : k ≤ N) :
    1 ≤ moveShift o m k ∧ moveShift o m k ≤ N := by
  unfold moveShift
  split_ifs <;> omega

theorem moveShift_inj (o m : Nat) (_hm : 1 ≤ m) (k1 k2 : Nat)
    (h1 : 1 ≤ k1) (h2 : 1 ≤ k2)
    (heq : moveShift o m k1 = moveShift o m k2) : k1 = k2 := by
  unfold moveShift at heq
  split_ifs at heq <;> omega

/-- Model of `reorder_field` after the row lookup succeeded: the validation and
dispatch structure, written out. -/
theorem reorderField_eq_of_find (fs : List Fld) (fid : Nat) (n : Int)
    (f : Fld) (hf : fs.find? (fun g => g.id == fid) = some f) :
    reorderField fs fid n =
      (if n < 1 then
        .error (.validationError "Order number must be at least 1")
      else if n > (fs.length : Int) then
        .error (.validationError "Order number cannot exceed the field count")
      else if n = (f.order_num : Int) then .ok fs
      else .ok (fs.map (moveFn fid f.order_num n))) := by
  unfold reorderField
  rw [hf]

/-- Inversion for a successful `reorder_field`: the row was found, the
validations passed, and the result is either the no-op table or the
shifted map. -/
theorem reorderField_ok_inv (fs : List Fld) (fid : Nat) (n : Int)
    (fs' : List Fld) (hok : reorderField fs fid n = .ok fs') :
    ∃ f, fs.find? (fun g => g.id == fid) = some f ∧ 1 ≤ n ∧
      n ≤ (fs.length : Int) ∧
      ((n = (f.order_num : Int) ∧ fs' = fs) ∨
       (n ≠ (f.order_num : Int) ∧ fs' = fs.map (moveFn fid f.order_num n))) := by
  unfold reorderField at hok
  cases hf : fs.find? (fun g => g.id == fid) with
  | none =>
    rw [hf] at hok
    have hok2 : (Except.error SvcError.notFound : Except SvcError (List Fld)) =
        Except.ok fs' := hok
    cases hok2
  | some f =>
    rw [hf] at hok
    have hok2 : (if n < 1 then
          (Except.error (SvcError.validationError "Order number must be at least 1") :
            Except SvcError (List Fld))
        else if n > (fs.length : Int) then
          Except.error (SvcError.validationError "Order number cannot exceed the field count")
        else if n = (f.order_num : Int) then Except.ok fs
        else Except.ok (fs.map (moveFn fid f.order_num n))) = Except.ok fs' := hok
    by_cases h1 : n < 1
    · rw [if_pos h1] at hok2; cases hok2
    · rw [if_neg h1] at hok2
      by_cases h2 : n > (fs.length : Int)
      · rw [if_pos h2] at hok2; cases hok2
      · rw [if_neg h2] at hok2
        by_cases h3 : n = (f.order_num : Int)
        · rw [if_pos h3] at hok2
          injection hok2 with hok2
          exact ⟨f, rfl, by omega, by omega, Or.inl ⟨h3, hok2.symm⟩⟩
        · rw [if_neg h3] at hok2
          injection hok2 with hok2
          exact ⟨f, rfl, by omega, by omega, Or.inr ⟨h3, hok2.symm⟩⟩

theorem reorderField_map_preserves (fs : List Fld) (fid : Nat) (n : Int)
    (f : Fld) (hu : UniqueIds fs) (hd : DenseOrders fs)
    (hf : fs.find? (fun g => g.id == fid) = some f)
    (hn1 : 1 ≤ n) (hnN : n ≤ (fs.length : Int)) :
    DenseOrders (fs.map (moveFn fid f.order_num n)) ∧
      UniqueIds (fs.map (moveFn fid f.order_num n)) := by
  set N := fs.length with hNN
  set o := f.order_num with hoo
  set m := n.toNat with hmm
  have hdp : List.Perm (fs.map (fun g => g.order_num)) (List.range' 1 N) := hd
  have hup : (fs.map (fun g => g.id)).Nodup := hu
  have hmem_f : f ∈ fs := List.mem_of_find?_eq_some hf
  have hfid : f.id = fid := by simpa using List.find?_some hf
  have hnodup_ord : (fs.map (fun g => g.order_num)).Nodup :=
    ((perm_range'_iff _ N (by simp)).mp hdp).1
  have hbounds : ∀ k ∈ fs.map (fun g => g.order_num), 1 ≤ k ∧ k ≤ N :=
    ((perm_range'_iff _ N (by simp)).mp hdp).2
  have ho_range : 1 ≤ o ∧ o ≤ N :=
    hbounds o (List.mem_map_of_mem _ hmem_f)
  have hm_range : 1 ≤ m ∧ m ≤ N := by
    constructor <;> omega
  -- pointwise, the new order is `moveShift o m` of the old order
  have hpoint : ∀ g ∈ fs,
      (moveFn fid o n g).order_num = moveShift o m g.order_num := by
    intro g hg
    refine moveFn_order fid o n hn1 g ?_ ?_
    · intro hid
      have : g = f := List.inj_on_of_nodup_map hup hg hmem_f (by rw [hid, hfid])
      rw [this]
    · intro hord
      have : g = f := List.inj_on_of_nodup_map hnodup_ord hg hmem_f hord
      rw [this, hfid]
  have hmap_ord : (fs.map (moveFn fid o n)).map (fun g => g.order_num) =
      (fs.map (fun g => g.order_num)).map (moveShift o m) := by
    rw [List.map_map, List.map_map]
    exact List.map_congr_left (fun g hg => hpoint g hg)
  have hperm1 : List.Perm ((fs.map (fun g => g.order_num)).map (moveShift o m))
      ((List.range' 1 N).map (moveShift o m)) := hdp.map _
  have hperm2 : List.Perm ((List.range' 1 N).map (moveShift o m))
      (List.range' 1 N) := by
    refine (perm_range'_iff _ N (by simp)).mpr ⟨?_, ?_⟩
    · refine List.Nodup.map_on ?_ (List.nodup_range' 1 N)
      intro x hx y hy hxy
      rw [List.mem_range'_1] at hx hy
      exact moveShift_inj o m (by omega) x y (by omega) (by omega) hxy
    · intro k hk
      rcases List.mem_map.mp hk with ⟨x, hx, hxk⟩
      rw [List.mem_range'_1] at hx
      rw [← hxk]
      exact moveShift_mem_range o m ho_range.1 ho_range.2 hm_range.1 hm_range.2
        x (by omega) (by omega)
  constructor
  · show List.Perm _ (List.range' 1 (fs.map (moveFn fid o n)).length)
    rw [hmap_ord, List.length_map]
    exact hperm1.trans hperm2
  · show ((fs.map (moveFn fid o n)).map (fun g => g.id)).Nodup
    rw [List.map_map]
    have : fs.map (fun g => (moveFn fid o n g).id) = fs.map (fun g => g.id) :=
      List.map_congr_left (fun g _ => moveFn_id fid o n g)
    rw [show (fun g => g.id) ∘ moveFn fid o n = fun g => (moveFn fid o n g).id
        from rfl, this]
    exact hup

/-! ## Every operation preserves the invariant; claim C1 -/

theorem applyOrdOp_preserves (fs : List Fld) (op : OrdOp)
    (h : DenseOrders fs ∧ UniqueIds fs) :
    DenseOrders (applyOrdOp fs op) ∧ UniqueIds (applyOrdOp fs op) := by
  obtain ⟨hd, hu⟩ := h
  cases op with
  | insert d =>
    simp only [applyOrdOp]
    cases hc : createField fs (freshId fs) { d with order_num := none } with
    | error e => exact ⟨hd, hu⟩
    | ok fs' =>
      have heq := createField_ok_eq _ _ _ _ hc
      have hmk : (mkField fs (freshId fs) { d with order_num := none }).order_num
          = fs.length + 1 := by
        unfold mkField fieldOrder
        simp [maxOrder_of_dense fs hd]
      constructor
      · show DenseOrders (commitOr (Except.ok fs') fs)
        simp only [commitOr]
        rw [heq]
        exact append_one_dense _ _ hd hmk
      · show UniqueIds (commitOr (Except.ok fs') fs)
        simp only [commitOr]
        rw [heq]
        unfold UniqueIds
        rw [List.map_append]
        rw [List.nodup_append]
        refine ⟨hu, List.nodup_singleton _, ?_⟩
        intro a ha hb
        simp only [List.map_cons, List.map_nil, List.mem_singleton] at hb
        rw [hb] at ha
        exact freshId_not_mem fs ha
  | del fid =>
    simp only [applyOrdOp]
    cases hc : deleteField fs fid with
    | error e => exact ⟨hd, hu⟩
    | ok fs' =>
      have hfind : ∃ f, fs.find? (fun g => g.id == fid) = some f := by
        unfold deleteField at hc
        cases hf : fs.find? (fun g => g.id == fid) with
        | none => rw [hf] at hc; cases hc
        | some f => exact ⟨f, rfl⟩
      rcases hfind with ⟨f, hf⟩
      have := deleteField_ok_spec fs fid f fs' hu hd hf hc
      exact ⟨this.1, this.2.1⟩
  | move fid n =>
    simp only [applyOrdOp]
    cases hc : reorderField fs fid n with
    | error e => exact ⟨hd, hu⟩
    | ok fs' =>
      rcases reorderField_ok_inv fs fid n fs' hc with
        ⟨f, hf, hn1, hnN, hcase⟩
      rcases hcase with ⟨_, heq⟩ | ⟨_, heq⟩
      · show DenseOrders (commitOr (Except.ok fs') fs) ∧
          UniqueIds (commitOr (Except.ok fs') fs)
        simp only [commitOr]
        rw [heq]
        exact ⟨hd, hu⟩
      · show DenseOrders (commitOr (Except.ok fs') fs) ∧
          UniqueIds (commitOr (Except.ok fs') fs)
        simp only [commitOr]
        rw [heq]
        exact reorderField_map_preserves fs fid n f hu hd hf hn1 hnN

/-- Claim C1 (dense-ordering invariant): starting from an empty sibling
set, after any finite sequence of inserts (without an explicit order),
deletes, and moves on a form's fields, the surviving siblings'
`order_num` values are exactly the multiset `{1, …, N}` (`N` = number of
survivors), each value appearing exactly once — `DenseOrders` states
precisely that the list of `order_num` values is a permutation of
`range' 1 N`.  Failed operations (validation errors, missing rows) leave
the table unchanged. -/
theorem dense_ordering_invariant (ops : List OrdOp) :
    DenseOrders (applyOrdOps [] ops) := by
  suffices h : ∀ fs, DenseOrders fs ∧ UniqueIds fs →
      DenseOrders (applyOrdOps fs ops) ∧ UniqueIds (applyOrdOps fs ops) by
    refine (h [] ⟨?_, ?_⟩).1
    · show List.Perm (([] : List Fld).map (fun f => f.order_num))
        (List.range' 1 ([] : List Fld).length)
      simp
    · show (([] : List Fld).map (fun f => f.id)).Nodup
      simp
  induction ops with
  | nil => intro fs h; exact h
  | cons op t ih =>
    intro fs h
    exact ih _ (applyOrdOp_preserves fs op h)

/-! ## Claims C2 and C3 -/

/-- Claim C2 (move postcondition): for every sibling set of size `N` and
every item with current order `o`, reordering it to `n` with `1 ≤ n ≤ N`
yields: if `n = o`, a no-op returning the table unchanged; otherwise the
moved item's `order_num` becomes `n`, every other sibling with
`o < order_num ≤ n` is decremented by one, every other sibling with
`n ≤ order_num < o` is incremented by one, and every sibling outside the
shifted range keeps its `order_num` (rows are compared positionally). -/
theorem reorder_field_move_postcondition (fs : List Fld) (fid : Nat)
    (n : Int) (f : Fld)
    (hf : fs.find? (fun g => g.id == fid) = some f)
    (h1 : 1 ≤ n) (h2 : n ≤ (fs.length : Int)) :
    (n = (f.order_num : Int) → reorderField fs fid n = .ok fs) ∧
    (n ≠ (f.order_num : Int) → ∃ fs',
      reorderField fs fid n = .ok fs' ∧
      fs'.length = fs.length ∧
      ∀ i (hi : i < fs.length) (hi' : i < fs'.length),
        (fs[i].id = fid →
          fs'[i].id = fs[i].id ∧ (fs'[i].order_num : Int) = n) ∧
        (fs[i].id ≠ fid →
          fs'[i].id = fs[i].id ∧
          (f.order_num < fs[i].order_num ∧ (fs[i].order_num : Int) ≤ n →
            fs'[i].order_num = fs[i].order_num - 1) ∧
          (n ≤ (fs[i].order_num : Int) ∧ fs[i].order_num < f.order_num →
            fs'[i].order_num = fs[i].order_num + 1) ∧
          (¬ (f.order_num < fs[i].order_num ∧ (fs[i].order_num : Int) ≤ n) →
           ¬ (n ≤ (fs[i].order_num : Int) ∧ fs[i].order_num < f.order_num) →
            fs'[i].order_num = fs[i].order_num))) := by
  constructor
  · intro heq
    rw [reorderField_eq_of_find fs fid n f hf,
      if_neg (by omega), if_neg (by omega), if_pos heq]
  · intro hne
    refine ⟨fs.map (moveFn fid f.order_num n), ?_, by simp, ?_⟩
    · rw [reorderField_eq_of_find fs fid n f hf,
        if_neg (by omega), if_neg (by omega), if_neg hne]
    · intro i hi hi'
      have hmapi : (fs.map (moveFn fid f.order_num n))[i] =
          moveFn fid f.order_num n fs[i] := List.getElem_map _
      constructor
      · intro hid
        rw [hmapi]
        unfold moveFn
        rw [if_pos hid]
        refine ⟨rfl, ?_⟩
        show ((n.toNat : Nat) : Int) = n
        omega
      · intro hid
        rw [hmapi]
        unfold moveFn
        rw [if_neg hid]
        split_ifs with hb hc
        · refine ⟨rfl, fun _ => rfl, fun hx => ?_, fun hx _ => ?_⟩
          · exact (show False by omega).elim
          · exact (show False by omega).elim
        · refine ⟨rfl, fun hx => ?_, fun _ => rfl, fun _ hy => ?_⟩
          · exact (show False by omega).elim
          · exact (show False by omega).elim
        · refine ⟨rfl, fun hx => ?_, fun hx => ?_, fun _ _ => rfl⟩
          · exact (show False by omega).elim
          · exact (show False by omega).elim

/-- Witness for C2: the spec's move-up scenario — fields A(1), B(2), C(3),
move C to position 1; afterwards A=2, B=3, C=1. -/
theorem reorder_field_move_postcondition_witness :
    exampleFields.find? (fun g => g.id == 3) = some fldC ∧
    (1 : Int) ≤ 1 ∧ (1 : Int) ≤ (exampleFields.length : Int) ∧
    reorderField exampleFields 3 1 =
      .ok [{ fldA with order_num := 2 }, { fldB with order_num := 3 },
           { fldC with order_num := 1 }] ∧
    ((1 : Int) ≠ (fldC.order_num : Int) → ∃ fs',
      reorderField exampleFields 3 1 = .ok fs' ∧
      fs'.length = exampleFields.length ∧
      ∀ i (hi : i < exampleFields.length) (hi' : i < fs'.length),
        (exampleFields[i].id = 3 →
          fs'[i].id = exampleFields[i].id ∧ (fs'[i].order_num : Int) = 1) ∧
        (exampleFields[i].id ≠ 3 →
          fs'[i].id = exampleFields[i].id ∧
          (fldC.order_num < exampleFields[i].order_num ∧
              (exampleFields[i].order_num : Int) ≤ 1 →
            fs'[i].order_num = exampleFields[i].order_num - 1) ∧
          ((1 : Int) ≤ (exampleFields[i].order_num : Int) ∧
              exampleFields[i].order_num < fldC.order_num →
            fs'[i].order_num = exampleFields[i].order_num + 1) ∧
          (¬ (fldC.order_num < exampleFields[i].order_num ∧
              (exampleFields[i].order_num : Int) ≤ 1) →
           ¬ ((1 : Int) ≤ (exampleFields[i].order_num : Int) ∧
              exampleFields[i].order_num < fldC.order_num) →
            fs'[i].order_num = exampleFields[i].order_num))) :=
  ⟨rfl, by norm_num, by decide, by rfl,
   (reorder_field_move_postcondition exampleFields 3 1 fldC rfl
      (by norm_num) (by decide)).2⟩

/-- Counterexample to claim C3 as stated: one of its cited
implementations, the `delete_field` variant in
`src/backup/services/consolidated_services.py` (lines 72-82), commits the
row deletion and the renumbering in two separate transactions, so the
deletion together with the renumbering is not atomic.  Concretely, on the
dense table with orders 1, 2, 3, deleting the order-2 field first commits
a table whose orders are 1 and 3 — gapped, not dense — and that state is
observable until (and instead of, should it fail) the second transaction;
only the second transaction restores density. -/
theorem consolidated_delete_gap_counterexample :
    DenseOrders exampleFields ∧ UniqueIds exampleFields ∧
    consolidatedDeleteField exampleFields 2 =
      .ok ([fldA, fldC], [fldA, { fldC with order_num := 2 }]) ∧
    ¬ DenseOrders [fldA, fldC] ∧
    DenseOrders [fldA, { fldC with order_num := 2 }] :=
  ⟨by decide, by decide, by rfl, by decide, by decide⟩

/-- Claim C3, as amended (delete renumbering; atomicity holds only in the
single-transaction implementation): on a dense sibling set with unique
ids, `FieldService.delete_field` of `src/forms/services/services.py` —
where lookup, deletion and renumbering share one `transaction.atomic` —
commits in a single step a table in which every surviving sibling with
`order_num > d` is decremented by one while all others keep their
`order_num`, and the result is again dense; no intermediate state is
observable there.  The two-transaction `consolidated_services.py` variant
reaches the same final table but exposes a gapped intermediate state, so
the atomicity conjunct of the original claim fails for it. -/
theorem delete_field_renumbering (fs : List Fld) (fid : Nat) (f : Fld)
    (hu : UniqueIds fs) (hd : DenseOrders fs)
    (hf : fs.find? (fun g => g.id == fid) = some f) :
    ∃ fs', deleteField fs fid = .ok fs' ∧
      fs'.length = fs.length - 1 ∧
      DenseOrders fs' ∧
      ∀ g ∈ fs, g.id ≠ fid →
        { g with order_num :=
            if f.order_num < g.order_num then g.order_num - 1
            else g.order_num } ∈ fs' := by
  have hok : ∃ fs', deleteField fs fid = .ok fs' := by
    unfold deleteField
    rw [hf]
    exact ⟨_, rfl⟩
  rcases hok with ⟨fs', hok⟩
  have hspec := deleteField_ok_spec fs fid f fs' hu hd hf hok
  exact ⟨fs', hok, hspec.2.2.1, hspec.1, hspec.2.2.2⟩

/-! ## Claim C10: zero-step process progress -/

/-- Claim C10 (zero-step process completion edge case): for every set of
responses, a process with zero steps reports `completed_steps = 0`,
`total_steps = 0`, `percentage = 0` and `is_complete = true`, and the
process-complete check used after completing a step likewise reports a
step-less process as complete. -/
theorem zero_step_process_progress (responses : List RespRec) :
    processProgress responses [] =
      { completed_steps := 0, total_steps := 0, percentage := 0,
        is_complete := true } ∧
    isProcessComplete responses [] = true := by
  constructor
  · unfold processProgress pyRound2 roundHalfEven
    norm_num
  · rfl

/-! ## Claim C6: live updates and the subscriber's requested type -/

/-- Counterexample to claim C6: a subscriber who connected requesting the
`detailed` report receives, on a broadcast update, the payload computed
for `summary` — the event's type, which the signal layer hard-codes — not
the payload for the type it requested at connect. -/
theorem report_update_counterexample :
    (Subscriber.mk 1 "detailed").report_type = "detailed" ∧
    reportUpdate (fun _ => none) 0 c6db (Subscriber.mk 1 "detailed")
        (broadcastForm 1) =
      some { msg_type := "update",
             payload := .summary (buildSummary (fun _ => none) 0 c6db 1 "F") } ∧
    buildPayload (fun _ => none) 0 c6db 1 "detailed" =
      .ok (.detailed (buildDetailed c6db 1 "F")) ∧
    ReportPayload.summary (buildSummary (fun _ => none) 0 c6db 1 "F") ≠
      ReportPayload.detailed (buildDetailed c6db 1 "F") :=
  ⟨rfl, rfl, rfl, fun h => ReportPayload.noConfusion h⟩

/-- Claim C6 as amended: on every committed create or delete of a
Response or Answer, each subscriber receives `{type: "update", payload}`
where the payload is recomputed for the report type carried by the
broadcast event — which the post-commit signal layer always sets to
`"summary"` — regardless of the report type the subscriber requested at
connect; only the client-initiated `{action: "refresh"}` pull honors the
connect-time type. -/
theorem report_update_uses_event_type (parse : String → Option ℚ) (now : ℚ)
    (db : ReportDB) (c : Subscriber) (fid : Nat) :
    reportUpdate parse now db c (broadcastForm fid) =
      (match buildPayload parse now db fid "summary" with
       | .ok p => some { msg_type := "update", payload := p }
       | .error _ => none) ∧
    receiveRefresh parse now db c =
      (match buildPayload parse now db c.form_id c.report_type with
       | .ok p => some { msg_type := "refresh", payload := p }
       | .error _ => none) :=
  ⟨rfl, rfl⟩

/-! ## Claim C7: access validation -/

/-- Counterexample to claim C7: `validate_process_access` ignores
`is_public`, so for an active **public** process (stored password `NULL`)
it returns `False` for any supplied password, where the claim requires
access validation to succeed regardless of the password. -/
theorem validate_process_access_counterexample :
    (ProcR.mk 1 true none true).is_public = true ∧
    (ProcR.mk 1 true none true).is_active = true ∧
    validateProcessAccess [ProcR.mk 1 true none true] 1 "wrong" = false :=
  ⟨rfl, rfl, rfl⟩

/-- Claim C7 as amended: for forms, `validate_form_access` behaves as
claimed — an active public form always validates, and an active private
form validates exactly when a non-empty password is supplied that equals
the stored `access_password` (both failures raise a `ValidationError`).
For processes, the claim holds only at the view layer: the helper
`validate_process_access` checks nothing but password equality against
the stored `access_password` of the active process, ignoring `is_public`
(its callers test `is_public` first and skip it for public processes). -/
theorem access_validation_amended :
    (∀ (forms : List FormR) (fid : Nat) (form : FormR)
        (password : Option String),
      findActiveForm forms fid = some form →
      (form.is_public = true →
        validateFormAccess forms fid password = .ok form) ∧
      (form.is_public = false →
        (validateFormAccess forms fid password = .ok form ↔
          ∃ p, password = some p ∧ p ≠ "" ∧
            form.access_password = some p))) ∧
    (∀ (procs : List ProcR) (pid : Nat) (password : String),
      validateProcessAccess procs pid password = true ↔
        ∃ proc, procs.find? (fun q => q.id == pid && q.is_active) = some proc ∧
          proc.access_password = some password) := by
  constructor
  · intro forms fid form password hfind
    constructor
    · intro hpub
      unfold validateFormAccess
      rw [hfind]
      simp [hpub]
    · intro hpriv
      unfold validateFormAccess
      rw [hfind]
      simp only [hpriv, Bool.false_eq_true, if_false]
      constructor
      · intro hok
        rcases hpw : password with _ | p
        · rw [hpw] at hok
          simp at hok
        · rw [hpw] at hok
          by_cases hp : p = ""
          · subst hp
            simp at hok
          · rw [if_neg (by simp [hp])] at hok
            refine ⟨p, rfl, hp, ?_⟩
            by_cases hv : validatePassword forms fid ((some p).getD "")
            · unfold validatePassword at hv
              rw [hfind] at hv
              simpa using hv
            · rw [if_pos (by simpa using hv)] at hok
              cases hok
      · rintro ⟨p, rfl, hp, hstored⟩
        rw [if_neg (by simp [hp])]
        have hv : validatePassword forms fid p = true := by
          unfold validatePassword
          rw [hfind]
          simpa using hstored
        rw [if_neg (by simp [hv])]
  · intro procs pid password
    unfold validateProcessAccess
    cases hfind : procs.find? (fun q => q.id == pid && q.is_active) with
    | none => simp
    | some proc => simp

/-- Witness for the amended C7: the spec's scenario — a private, active
form with `access_password = "secret"`: the wrong password is rejected,
the right one accepted; and the process-level helper validates the
password of an active private process. -/
theorem access_validation_amended_witness :
    findActiveForm [FormR.mk 7 false (some "secret") true] 7 =
      some (FormR.mk 7 false (some "secret") true) ∧
    (FormR.mk 7 false (some "secret") true).is_public = false ∧
    validateFormAccess [FormR.mk 7 false (some "secret") true] 7
        (some "wrong") = .error (.validationError "Invalid password") ∧
    validateFormAccess [FormR.mk 7 false (some "secret") true] 7
        (some "secret") = .ok (FormR.mk 7 false (some "secret") true) ∧
    ((FormR.mk 7 false (some "secret") true).is_public = false →
      (validateFormAccess [FormR.mk 7 false (some "secret") true] 7
          (some "wrong") = .ok (FormR.mk 7 false (some "secret") true) ↔
        ∃ p, (some "wrong" : Option String) = some p ∧ p ≠ "" ∧
          (FormR.mk 7 false (some "secret") true).access_password = some p)) ∧
    (validateProcessAccess [ProcR.mk 9 false (some "pw") true] 9 "pw" = true ↔
      ∃ proc, ([ProcR.mk 9 false (some "pw") true].find?
          (fun q => q.id == 9 && q.is_active)) = some proc ∧
        proc.access_password = some "pw") :=
  ⟨rfl, rfl, rfl, rfl,
   (access_validation_amended.1 [FormR.mk 7 false (some "secret") true] 7
      (FormR.mk 7 false (some "secret") true) (some "wrong") rfl).2,
   access_validation_amended.2 [ProcR.mk 9 false (some "pw") true] 9 "pw"⟩

/-- Witness for C3: the spec's delete scenario — fields at order 1, 2, 3;
deleting the order-2 field leaves orders 1 and 2 (formerly 1 and 3). -/
theorem delete_field_renumbering_witness :
    UniqueIds exampleFields ∧ DenseOrders exampleFields ∧
    exampleFields.find? (fun g => g.id == 2) = some fldB ∧
    deleteField exampleFields 2 = .ok [fldA, { fldC with order_num := 2 }] ∧
    (∃ fs', deleteField exampleFields 2 = .ok fs' ∧
      fs'.length = exampleFields.length - 1 ∧
      DenseOrders fs' ∧
      ∀ g ∈ exampleFields, g.id ≠ 2 →
        { g with order_num :=
            if fldB.order_num < g.order_num then g.order_num - 1
            else g.order_num } ∈ fs') :=
  ⟨by decide, by decide, rfl, by rfl,
   delete_field_renumbering exampleFields 2 fldB (by decide) (by decide) rfl⟩

/-! ## Claim C4: required-field coverage -/

/-- Counterexample to claim C4: the `submit_response` variant in
`consolidated_services.py` performs no required-field check — submitting
only an answer for the optional field succeeds although the required
field A has no answer. -/
theorem consolidated_submit_counterexample :
    (∃ f ∈ c4form.fields, f.is_required = true ∧
      ∀ a ∈ [AnswerIn.mk 2 "x"], a.field_id ≠ f.id) ∧
    consolidatedSubmitResponse c4form [AnswerIn.mk 2 "x"] =
      .ok { answers := [AnswerIn.mk 2 "x"] } := by
  constructor
  · exact ⟨{ id := 1, label := "A", is_required := true }, by decide, rfl,
      by decide⟩
  · rfl

/-- Claim C4 as amended: `ResponseService.submit_response` in
`src/backup/services/response_service.py` behaves as claimed — for an
active form, under the precondition that every submitted answer
references a field of the form, submission fails if and only if some
required field has no submitted answer, and on failure the error lists
exactly the labels of the unanswered required fields; the
`consolidated_services.py` variant omits the required-field check
entirely (see the counterexample). -/
theorem submit_response_required_coverage (form : FormS)
    (answers_data : List AnswerIn)
    (hactive : form.is_active = true)
    (hmember : ∀ a ∈ answers_data, ∃ f ∈ form.fields, f.id = a.field_id) :
    (¬ (∃ f ∈ form.fields, f.is_required = true ∧
          ∀ a ∈ answers_data, a.field_id ≠ f.id) →
      submitResponse form answers_data = .ok { answers := answers_data }) ∧
    ((∃ f ∈ form.fields, f.is_required = true ∧
          ∀ a ∈ answers_data, a.field_id ≠ f.id) →
      ∃ labels, submitResponse form answers_data =
          .error (.missingRequired labels) ∧ labels ≠ [] ∧
        ∀ l, l ∈ labels ↔ ∃ f ∈ form.fields, f.is_required = true ∧
          (∀ a ∈ answers_data, a.field_id ≠ f.id) ∧ f.label = l) := by
  have hmiss_iff : ∀ l,
      l ∈ (form.fields.filter (fun f => f.is_required)).filterMap
        (fun f =>
          if answers_data.all (fun a => a.field_id ≠ f.id) then some f.label
          else none) ↔
      ∃ f ∈ form.fields, f.is_required = true ∧
        (∀ a ∈ answers_data, a.field_id ≠ f.id) ∧ f.label = l := by
    intro l
    rw [List.mem_filterMap]
    constructor
    · rintro ⟨f, hf, hval⟩
      rw [List.mem_filter] at hf
      split_ifs at hval with hall
      injection hval with hval
      refine ⟨f, hf.1, by simpa using hf.2, ?_, hval⟩
      intro a ha
      have := List.all_eq_true.mp hall a ha
      simpa using this
    · rintro ⟨f, hf, hreq, hnoans, hlab⟩
      refine ⟨f, List.mem_filter.mpr ⟨hf, by simpa using hreq⟩, ?_⟩
      rw [if_pos (List.all_eq_true.mpr (fun a ha => by
        simpa using hnoans a ha))]
      rw [hlab]
  constructor
  · intro hnone
    unfold submitResponse
    rw [if_neg (by simp [hactive])]
    have hmiss : (form.fields.filter (fun f => f.is_required)).filterMap
        (fun f =>
          if answers_data.all (fun a => a.field_id ≠ f.id) then some f.label
          else none) = [] := by
      rcases hnil : (form.fields.filter (fun f => f.is_required)).filterMap
          (fun f =>
            if answers_data.all (fun a => a.field_id ≠ f.id) then some f.label
            else none) with _ | ⟨l, rest⟩
      · exact hnil
      · exfalso
        apply hnone
        have hl : l ∈ (form.fields.filter (fun f => f.is_required)).filterMap
            (fun f =>
              if answers_data.all (fun a => a.field_id ≠ f.id) then some f.label
              else none) := by
          rw [hnil]; exact List.mem_cons_self _ _
        rcases (hmiss_iff l).mp hl with ⟨f, hf, hreq, hnoans, _⟩
        exact ⟨f, hf, hreq, hnoans⟩
    rw [hmiss]
    simp only [List.isEmpty_nil, not_true, if_false]
    have hinv : answers_data.filterMap (fun a =>
        if form.fields.all (fun f => f.id ≠ a.field_id) then some a.field_id
        else none) = [] := by
      rw [List.filterMap_eq_nil_iff]
      intro a ha
      rcases hmember a ha with ⟨f, hf, hid⟩
      rw [if_neg]
      intro hall
      have := List.all_eq_true.mp hall f hf
      simp only [decide_eq_true_eq] at this
      exact this hid
    rw [hinv]
    simp
  · rintro ⟨f, hf, hreq, hnoans⟩
    have hmem2 : f.label ∈ (form.fields.filter (fun f => f.is_required)).filterMap
        (fun f =>
          if answers_data.all (fun a => a.field_id ≠ f.id) then some f.label
          else none) := (hmiss_iff f.label).mpr ⟨f, hf, hreq, hnoans, rfl⟩
    refine ⟨(form.fields.filter (fun f => f.is_required)).filterMap
        (fun f =>
          if answers_data.all (fun a => a.field_id ≠ f.id) then some f.label
          else none), ?_, ?_, hmiss_iff⟩
    · unfold submitResponse
      rw [if_neg (by simp [hactive])]
      rw [if_pos]
      intro hemp
      rw [List.isEmpty_iff] at hemp
      rw [hemp] at hmem2
      cases hmem2
    · intro hnil
      rw [hnil] at hmem2
      cases hmem2

/-- Witness for the amended C4: on the fixture form, answering only the
optional field fails listing label "A"; answering the required field
succeeds. -/
theorem submit_response_required_coverage_witness :
    c4form.is_active = true ∧
    (∀ a ∈ [AnswerIn.mk 2 "x"], ∃ f ∈ c4form.fields, f.id = a.field_id) ∧
    submitResponse c4form [AnswerIn.mk 2 "x"] =
      .error (.missingRequired ["A"]) ∧
    submitResponse c4form [AnswerIn.mk 1 "y"] =
      .ok { answers := [AnswerIn.mk 1 "y"] } ∧
    ((∃ f ∈ c4form.fields, f.is_required = true ∧
        ∀ a ∈ [AnswerIn.mk 2 "x"], a.field_id ≠ f.id) →
      ∃ labels, submitResponse c4form [AnswerIn.mk 2 "x"] =
          .error (.missingRequired labels) ∧ labels ≠ [] ∧
        ∀ l, l ∈ labels ↔ ∃ f ∈ c4form.fields, f.is_required = true ∧
          (∀ a ∈ [AnswerIn.mk 2 "x"], a.field_id ≠ f.id) ∧ f.label = l) :=
  ⟨rfl, by decide, rfl, rfl,
   (submit_response_required_coverage c4form [AnswerIn.mk 2 "x"] rfl
      (by decide)).2⟩

/-! ## Claim C9: rating option validation -/

/-- Counterexample to claim C9: the `validate_field_options` variant in
`consolidated_services.py` only handles `select`/`checkbox`; for
`rating` options with `min_value = 5 ≥ max_value = 1` it still returns
`True` instead of failing, and a field created through that service would
be persisted. -/
theorem consolidated_rating_validation_counterexample :
    (optGet [("min_value", OptVal.num 5), ("max_value", OptVal.num 1)]
        "min_value" (.num 1)).numVal = some 5 ∧
    (optGet [("min_value", OptVal.num 5), ("max_value", OptVal.num 1)]
        "max_value" (.num 5)).numVal = some 1 ∧
    (5 : ℚ) ≥ 1 ∧
    consolidatedValidateFieldOptions "rating"
      [("min_value", OptVal.num 5), ("max_value", OptVal.num 1)] = .ok true :=
  ⟨rfl, rfl, by norm_num, rfl⟩

/-- Claim C9 as amended: `FieldService.validate_field_options` in
`src/forms/services/services.py` behaves as claimed — for `rating`
options whose effective `min_value`, `max_value` and `step` are numeric,
validation succeeds iff `min_value < max_value` and `step > 0`, raising a
`ValidationError` naming the violated constraint otherwise, and
`create_field` then refuses to persist the field; the
`consolidated_services.py` variant never checks `rating` options (see the
counterexample). -/
theorem rating_option_validation (options : List (String × OptVal))
    (mn mx st : ℚ)
    (hmn : (optGet options "min_value" (.num 1)).numVal = some mn)
    (hmx : (optGet options "max_value" (.num 5)).numVal = some mx)
    (hst : (optGet options "step" (.num 1)).numVal = some st) :
    (mn < mx ∧ 0 < st →
      validateFieldOptions "rating" options = .ok true) ∧
    (mn ≥ mx →
      validateFieldOptions "rating" options =
        .error (.validationError "Rating min_value must be less than max_value")) ∧
    (mn < mx ∧ st ≤ 0 →
      validateFieldOptions "rating" options =
        .error (.validationError "Rating step must be greater than 0")) ∧
    (mn ≥ mx ∨ st ≤ 0 →
      ∀ (fs : List Fld) (newId : Nat) (d : FieldData),
        d.field_type = "rating" → d.options = options →
        (∃ msg, createField fs newId d = .error (.validationError msg)) ∧
        commitOr (createField fs newId d) fs = fs) := by
  have hrating : validateFieldOptions "rating" options =
      (match (optGet options "min_value" (.num 1)).numVal,
             (optGet options "max_value" (.num 5)).numVal with
       | some mn0, some mx0 =>
         if mn0 ≥ mx0 then
           .error (.validationError
             "Rating min_value must be less than max_value")
         else
           match (optGet options "step" (.num 1)).numVal with
           | some st0 =>
             if st0 ≤ 0 then
               .error (.validationError "Rating step must be greater than 0")
             else .ok true
           | none => .error .typeError
       | _, _ =>
         .error (.validationError
           "Rating min_value and max_value must be numbers")) := rfl
  have hbody : validateFieldOptions "rating" options =
      (if mn ≥ mx then
        .error (.validationError "Rating min_value must be less than max_value")
      else if st ≤ 0 then
        .error (.validationError "Rating step must be greater than 0")
      else .ok true) := by
    rw [hrating, hmn, hmx, hst]
  refine ⟨?_, ?_, ?_, ?_⟩
  · rintro ⟨h1, h2⟩
    rw [hbody, if_neg (not_le.mpr h1), if_neg (not_le.mpr h2)]
  · intro h1
    rw [hbody, if_pos h1]
  · rintro ⟨h1, h2⟩
    rw [hbody, if_neg (not_le.mpr h1), if_pos h2]
  · intro hbad fs newId d hdt hdo
    have herr : ∃ msg, validateFieldOptions "rating" options =
        .error (.validationError msg) := by
      rcases hbad with h1 | h2
      · exact ⟨_, by rw [hbody, if_pos h1]⟩
      · by_cases h1 : mn ≥ mx
        · exact ⟨_, by rw [hbody, if_pos h1]⟩
        · exact ⟨_, by rw [hbody, if_neg h1, if_pos h2]⟩
    rcases herr with ⟨msg, hmsg⟩
    have hcf : createField fs newId d = .error (.validationError msg) := by
      unfold createField
      rw [if_pos (by rw [hdt]; decide)]
      rw [hdt, hdo, hmsg]
    exact ⟨⟨msg, hcf⟩, by rw [hcf]; rfl⟩

/-- Witness for the amended C9: with empty options the effective values
are the defaults `min = 1 < max = 5`, `step = 1 > 0`, so validation
succeeds; with `min_value = 5, max_value = 1` it fails and the field is
not persisted. -/
theorem rating_option_validation_witness :
    (optGet [] "min_value" (.num 1)).numVal = some 1 ∧
    (optGet [] "max_value" (.num 5)).numVal = some 5 ∧
    (optGet [] "step" (.num 1)).numVal = some 1 ∧
    ((1 : ℚ) < 5 ∧ (0 : ℚ) < 1 →
      validateFieldOptions "rating" [] = .ok true) ∧
    validateFieldOptions "rating"
      [("min_value", OptVal.num 5), ("max_value", OptVal.num 1)] =
      .error (.validationError "Rating min_value must be less than max_value") ∧
    commitOr (createField []
      0 { label := "r", field_type := "rating", is_required := false,
          options := [("min_value", OptVal.num 5), ("max_value", OptVal.num 1)],
          order_num := none }) [] = [] :=
  ⟨rfl, rfl, rfl,
   (rating_option_validation [] 1 5 1 rfl rfl rfl).1,
   by
     have h := (rating_option_validation
       [("min_value", OptVal.num 5), ("max_value", OptVal.num 1)]
       5 1 1 rfl rfl rfl).2.1
     exact h (by norm_num),
   by
     have h := (rating_option_validation
       [("min_value", OptVal.num 5), ("max_value", OptVal.num 1)]
       5 1 1 rfl rfl rfl).2.2.2
     exact (h (Or.inl (by norm_num)) [] 0 _ rfl rfl).2⟩

/-! ## Claim C8: report scheduling -/

theorem runOnce_schedule_type (now : ℚ) (r : ReportRec) :
    (runOnce now r).schedule_type = r.schedule_type := by
  unfold runOnce bumpNextRun
  by_cases h : r.schedule_type = "manual"
  · rw [if_pos h]
  · rw [if_neg h]
    cases hc : computeInitialNextRun now r with
    | none => rfl
    | some nxt => rfl

/-- Claim C8 (scheduling): in any report table where manual reports have
no `next_run` (the only writers of `next_run` in the code are the
weekly/monthly bumps), the periodic sweep selects exactly the active
reports whose `next_run` has passed and returns their count; no manual
report is ever executed; and each executed weekly/monthly report — and
more generally every `run_once`, including the first — leaves
`next_run = now + 7` resp. `now + 30` days. -/
theorem report_scheduling (now : ℚ) (reports : List ReportRec)
    (hmanual : ∀ r ∈ reports, r.schedule_type = "manual" →
      r.next_run = none) :
    (∀ r : ReportRec, isDue now r = true ↔
      r.is_active = true ∧ ∃ t, r.next_run = some t ∧ t ≤ now) ∧
    (runDueReports now reports).2.1 = reports.filter (isDue now) ∧
    (runDueReports now reports).2.2 =
      (reports.filter (isDue now)).length ∧
    (∀ r ∈ (runDueReports now reports).2.1, r.schedule_type ≠ "manual") ∧
    (∀ r : ReportRec, r.schedule_type = "weekly" →
      (runOnce now r).next_run = some (now + 7)) ∧
    (∀ r : ReportRec, r.schedule_type = "monthly" →
      (runOnce now r).next_run = some (now + 30)) ∧
    (∀ r ∈ (runDueReports now reports).1, r.schedule_type = "manual" →
      r.next_run = none) := by
  refine ⟨?_, rfl, rfl, ?_, ?_, ?_, ?_⟩
  · intro r
    unfold isDue
    cases hn : r.next_run with
    | none => simp
    | some t => simp
  · intro r hr hman
    have hmem := List.mem_filter.mp hr
    have hdue := hmem.2
    have hnone := hmanual r hmem.1 hman
    unfold isDue at hdue
    rw [hnone] at hdue
    simp at hdue
  · intro r h
    unfold runOnce bumpNextRun computeInitialNextRun
    rw [h]
    rfl
  · intro r h
    unfold runOnce bumpNextRun computeInitialNextRun
    rw [h]
    rfl
  · intro r' hr' hman'
    rcases List.mem_map.mp hr' with ⟨r, hr, heq⟩
    by_cases hdue : isDue now r = true
    · rw [if_pos hdue] at heq
      have hsch : r.schedule_type = "manual" := by
        rw [← heq, runOnce_schedule_type] at hman'
        exact hman'
      have hnone := hmanual r hr hsch
      unfold isDue at hdue
      rw [hnone] at hdue
      simp at hdue
    · rw [if_neg hdue] at heq
      rw [← heq]
      rw [← heq] at hman'
      exact hmanual r hr hman'

/-- Witness for C8: a table with a manual report (no `next_run`) and a
due weekly report; the sweep runs exactly the weekly one and its next
run becomes `now + 7`. -/
theorem report_scheduling_witness :
    (∀ r ∈ [ReportRec.mk 1 1 "summary" "manual" "email" none true,
            ReportRec.mk 2 1 "summary" "weekly" "email" (some 50) true],
      r.schedule_type = "manual" → r.next_run = none) ∧
    (runDueReports 100
        [ReportRec.mk 1 1 "summary" "manual" "email" none true,
         ReportRec.mk 2 1 "summary" "weekly" "email" (some 50) true]).2.2 = 1 ∧
    (runDueReports 100
        [ReportRec.mk 1 1 "summary" "manual" "email" none true,
         ReportRec.mk 2 1 "summary" "weekly" "email" (some 50) true]).2.1 =
      [ReportRec.mk 2 1 "summary" "weekly" "email" (some 50) true] ∧
    (runOnce 100 (ReportRec.mk 2 1 "summary" "weekly" "email" (some 50) true)).next_run =
      some 107 ∧
    (∀ r : ReportRec, r.schedule_type = "weekly" →
      (runOnce (100 : ℚ) r).next_run = some (100 + 7)) :=
  ⟨by decide, by rfl, by rfl,
   by
     have h := (report_scheduling 100
       [ReportRec.mk 1 1 "summary" "manual" "email" none true,
        ReportRec.mk 2 1 "summary" "weekly" "email" (some 50) true]
       (by decide)).2.2.2.2.1
     rw [h (ReportRec.mk 2 1 "summary" "weekly" "email" (some 50) true) rfl]
     norm_num,
   (report_scheduling 100
     [ReportRec.mk 1 1 "summary" "manual" "email" none true,
      ReportRec.mk 2 1 "summary" "weekly" "email" (some 50) true]
     (by decide)).2.2.2.2.1⟩

/-! ## Claim C5: summary per-field statistics -/

theorem mem_firstSeenKeys {α : Type} [DecidableEq α] (l : List α) (x : α) :
    x ∈ firstSeenKeys l ↔ x ∈ l := by
  induction l with
  | nil => simp [firstSeenKeys]
  | cons a t ih =>
    simp only [firstSeenKeys, List.mem_cons, List.mem_filter]
    by_cases hx : x = a
    · simp [hx]
    · simp [hx, ih]

theorem nodup_firstSeenKeys {α : Type} [DecidableEq α] (l : List α) :
    (firstSeenKeys l).Nodup := by
  induction l with
  | nil => simp [firstSeenKeys]
  | cons a t ih =>
    rw [firstSeenKeys, List.nodup_cons]
    constructor
    · intro hmem
      have := (List.mem_filter.mp hmem).2
      simp at this
    · exact List.Nodup.filter _ ih

theorem foldl_min_mem (x : ℚ) (xs : List ℚ) : xs.foldl min x ∈ x :: xs := by
  induction xs generalizing x with
  | nil => simp
  | cons a t ih =>
    rw [List.foldl_cons]
    have h := ih (min x a)
    rcases List.mem_cons.mp h with h | h
    · rcases min_choice x a with hc | hc <;> rw [h, hc] <;> simp
    · simp [h]

theorem foldl_min_le (x : ℚ) (xs : List ℚ) :
    ∀ y ∈ x :: xs, xs.foldl min x ≤ y := by
  induction xs generalizing x with
  | nil =>
    intro y hy
    rcases List.mem_cons.mp hy with hy | hy
    · rw [hy]
      exact le_refl x
    · cases hy
  | cons a t ih =>
    intro y hy
    rw [List.foldl_cons]
    have hself : t.foldl min (min x a) ≤ min x a :=
      ih (min x a) (min x a) (List.mem_cons_self _ _)
    rcases List.mem_cons.mp hy with hy | hy
    · subst hy
      exact le_trans hself (min_le_left _ _)
    · rcases List.mem_cons.mp hy with hy | hy
      · subst hy
        exact le_trans hself (min_le_right _ _)
      · exact ih (min x a) y (List.mem_cons_of_mem _ hy)

theorem foldl_max_mem (x : ℚ) (xs : List ℚ) : xs.foldl max x ∈ x :: xs := by
  induction xs generalizing x with
  | nil => simp
  | cons a t ih =>
    rw [List.foldl_cons]
    have h := ih (max x a)
    rcases List.mem_cons.mp h with h | h
    · rcases max_choice x a with hc | hc <;> rw [h, hc] <;> simp
    · simp [h]

theorem le_foldl_max (x : ℚ) (xs : List ℚ) :
    ∀ y ∈ x :: xs, y ≤ xs.foldl max x := by
  induction xs generalizing x with
  | nil =>
    intro y hy
    rcases List.mem_cons.mp hy with hy | hy
    · rw [hy]
      exact le_refl x
    · cases hy
  | cons a t ih =>
    intro y hy
    rw [List.foldl_cons]
    have hself : max x a ≤ t.foldl max (max x a) :=
      ih (max x a) (max x a) (List.mem_cons_self _ _)
    rcases List.mem_cons.mp hy with hy | hy
    · subst hy
      exact le_trans (le_max_left _ _) hself
    · rcases List.mem_cons.mp hy with hy | hy
      · subst hy
        exact le_trans (le_max_right _ _) hself
      · exact ih (max x a) y (List.mem_cons_of_mem _ hy)

theorem listMin_spec (l : List ℚ) (h : l ≠ []) :
    ∃ m, listMin l = some m ∧ m ∈ l ∧ ∀ x ∈ l, m ≤ x := by
  cases l with
  | nil => cases h rfl
  | cons a t => exact ⟨t.foldl min a, rfl, foldl_min_mem a t, foldl_min_le a t⟩

theorem listMax_spec (l : List ℚ) (h : l ≠ []) :
    ∃ m, listMax l = some m ∧ m ∈ l ∧ ∀ x ∈ l, x ≤ m := by
  cases l with
  | nil => cases h rfl
  | cons a t => exact ⟨t.foldl max a, rfl, foldl_max_mem a t, le_foldl_max a t⟩

theorem pyMedian_spec (l : List ℚ) (h : l ≠ []) :
    ∃ md, pyMedian l = some md ∧ ∃ sorted, List.Perm sorted l ∧
      List.Sorted (fun a b : ℚ => a ≤ b) sorted ∧
      md = (if l.length % 2 = 1 then sorted.getD (l.length / 2) 0
            else (sorted.getD (l.length / 2 - 1) 0 +
                  sorted.getD (l.length / 2) 0) / 2) := by
  cases l with
  | nil => cases h rfl
  | cons a t =>
    refine ⟨_, rfl, (a :: t).insertionSort (fun x y => x ≤ y),
      List.perm_insertionSort _ _, List.sorted_insertionSort _ _, rfl⟩

theorem mostCommon_eq (k : Nat) (texts : List String) :
    mostCommon k texts =
      (((firstSeenKeys texts).map (fun v => (v, texts.count v))).insertionSort
        (fun a b => b.2 ≤ a.2)).take k := rfl

theorem mostCommon_spec (k : Nat) (texts : List String) :
    (mostCommon k texts).length = min k (firstSeenKeys texts).length ∧
    ((mostCommon k texts).map Prod.fst).Nodup ∧
    (∀ p ∈ mostCommon k texts, p.1 ∈ texts ∧ p.2 = texts.count p.1) ∧
    List.Sorted (fun a b : String × Nat => b.2 ≤ a.2) (mostCommon k texts) ∧
    (∀ w ∈ texts, w ∉ (mostCommon k texts).map Prod.fst →
      ∀ p ∈ mostCommon k texts, texts.count w ≤ p.2) := by
  have hperm : List.Perm
      (((firstSeenKeys texts).map (fun v => (v, texts.count v))).insertionSort
        (fun a b => b.2 ≤ a.2))
      ((firstSeenKeys texts).map (fun v => (v, texts.count v))) :=
    List.perm_insertionSort _ _
  have hsorted : List.Sorted (fun a b : String × Nat => b.2 ≤ a.2)
      (((firstSeenKeys texts).map (fun v => (v, texts.count v))).insertionSort
        (fun a b => b.2 ≤ a.2)) :=
    List.sorted_insertionSort _ _
  have hfst : (((firstSeenKeys texts).map
      (fun v => (v, texts.count v))).insertionSort
        (fun a b => b.2 ≤ a.2)).map Prod.fst |>.Nodup := by
    have h1 : List.Perm
        ((((firstSeenKeys texts).map (fun v => (v, texts.count v))).insertionSort
          (fun a b => b.2 ≤ a.2)).map Prod.fst)
        (((firstSeenKeys texts).map (fun v => (v, texts.count v))).map Prod.fst) :=
      hperm.map _
    have h2 : ((firstSeenKeys texts).map
        (fun v => (v, texts.count v))).map Prod.fst = firstSeenKeys texts := by
      rw [List.map_map]
      exact List.map_id _
    rw [h2] at h1
    exact h1.symm.nodup (nodup_firstSeenKeys texts)
  refine ⟨?_, ?_, ?_, ?_, ?_⟩
  · rw [mostCommon_eq, List.length_take, hperm.length_eq, List.length_map]
  · rw [mostCommon_eq, List.map_take]
    exact (List.take_sublist _ _).nodup hfst
  · intro p hp
    rw [mostCommon_eq] at hp
    have hp2 : p ∈ ((firstSeenKeys texts).map
        (fun v => (v, texts.count v))).insertionSort (fun a b => b.2 ≤ a.2) :=
      List.take_subset _ _ hp
    have hp3 := (hperm.mem_iff).mp hp2
    rcases List.mem_map.mp hp3 with ⟨v, hv, hvp⟩
    rw [← hvp]
    exact ⟨(mem_firstSeenKeys texts v).mp hv, rfl⟩
  · rw [mostCommon_eq]
    exact List.Pairwise.sublist (List.take_sublist _ _) hsorted
  · intro w hw hwnot p hp
    rw [mostCommon_eq] at hwnot hp
    have hwkeys : w ∈ firstSeenKeys texts := (mem_firstSeenKeys texts w).mpr hw
    have hwitems : (w, texts.count w) ∈ (firstSeenKeys texts).map
        (fun v => (v, texts.count v)) := List.mem_map_of_mem _ hwkeys
    have hwsorted : (w, texts.count w) ∈
        ((firstSeenKeys texts).map (fun v => (v, texts.count v))).insertionSort
          (fun a b => b.2 ≤ a.2) := (hperm.mem_iff).mpr hwitems
    rw [← List.take_append_drop k
      (((firstSeenKeys texts).map (fun v => (v, texts.count v))).insertionSort
        (fun a b => b.2 ≤ a.2))] at hwsorted hsorted
    rcases List.mem_append.mp hwsorted with hin | hin
    · exact absurd (List.mem_map_of_mem Prod.fst hin) hwnot
    · have hpa := (List.pairwise_append.mp hsorted).2.2
      exact hpa p hp (w, texts.count w) hin

/-- Claim C5 (summary per-field statistics): for every form and every
field with at least one answer, the summary report contains an entry for
the field whose statistics are those of `buildFieldSummary` on the
field's answer values; the non-empty stripped values are partitioned into
parseable-numeric and text, the numeric part reports count, min, max,
mean and median, and the text part reports the (at most) ten most
frequent values with their counts, most frequent first. -/
theorem summary_field_statistics (parse : String → Option ℚ)
    (ans : List AnsRec) (fid : Nat)
    (hmem : fid ∈ ans.map (fun a => a.field_id)) :
    ∃ s, (fid, s) ∈ buildSummaryFields parse ans ∧
      s = buildFieldSummary parse (fieldValues ans fid) ∧
      List.Perm (nonEmptyStripped (fieldValues ans fid))
        (((nonEmptyStripped (fieldValues ans fid)).filter
            (fun v => (parse v).isSome)) ++
         ((nonEmptyStripped (fieldValues ans fid)).filter
            (fun v => (parse v).isNone))) ∧
      NumericStatsOk
        ((nonEmptyStripped (fieldValues ans fid)).filterMap parse) s ∧
      TopValuesOk
        ((nonEmptyStripped (fieldValues ans fid)).filter
          (fun v => (parse v).isNone)) s := by
  refine ⟨buildFieldSummary parse (fieldValues ans fid), ?_, rfl, ?_, ?_, ?_⟩
  · unfold buildSummaryFields
    exact List.mem_map_of_mem _ ((mem_firstSeenKeys _ fid).mpr hmem)
  · have h := List.filter_append_perm (fun v => (parse v).isSome)
      (nonEmptyStripped (fieldValues ans fid))
    have hcongr : (nonEmptyStripped (fieldValues ans fid)).filter
        (fun v => !(parse v).isSome) =
        (nonEmptyStripped (fieldValues ans fid)).filter
          (fun v => (parse v).isNone) := by
      apply List.filter_congr
      intro v _
      cases parse v <;> rfl
    rw [hcongr] at h
    exact h.symm
  · constructor
    · intro hnil
      refine ⟨?_, ?_, ?_, ?_, ?_⟩ <;>
        · show (if ((nonEmptyStripped (fieldValues ans fid)).filterMap
              parse).isEmpty then none else _) = none
          rw [hnil]
          rfl
    · intro hne
      have hE : ((nonEmptyStripped (fieldValues ans fid)).filterMap
          parse).isEmpty = false := by
        cases hE : ((nonEmptyStripped (fieldValues ans fid)).filterMap
            parse).isEmpty
        · rfl
        · exact absurd (List.isEmpty_iff.mp hE) hne
      refine ⟨?_, ?_, ?_, ?_, ?_⟩
      · show (if ((nonEmptyStripped (fieldValues ans fid)).filterMap
            parse).isEmpty then none else some _) = _
        rw [hE]
        rfl
      · rcases listMin_spec _ hne with ⟨m, hm, hmem2, hle⟩
        refine ⟨m, ?_, hmem2, hle⟩
        show (if ((nonEmptyStripped (fieldValues ans fid)).filterMap
            parse).isEmpty then none
          else listMin ((nonEmptyStripped (fieldValues ans fid)).filterMap
            parse)) = some m
        rw [hE, if_neg Bool.false_ne_true, hm]
      · rcases listMax_spec _ hne with ⟨m, hm, hmem2, hle⟩
        refine ⟨m, ?_, hmem2, hle⟩
        show (if ((nonEmptyStripped (fieldValues ans fid)).filterMap
            parse).isEmpty then none
          else listMax ((nonEmptyStripped (fieldValues ans fid)).filterMap
            parse)) = some m
        rw [hE, if_neg Bool.false_ne_true, hm]
      · refine ⟨((nonEmptyStripped (fieldValues ans fid)).filterMap parse).sum /
            (((nonEmptyStripped (fieldValues ans fid)).filterMap
              parse).length : ℚ), ?_, ?_⟩
        · show (if ((nonEmptyStripped (fieldValues ans fid)).filterMap
              parse).isEmpty then none else some _) = some _
          rw [hE]
          rfl
        · have hpos : 0 < ((nonEmptyStripped (fieldValues ans fid)).filterMap
              parse).length := List.length_pos.mpr hne
          have hlen : (((nonEmptyStripped (fieldValues ans fid)).filterMap
              parse).length : ℚ) ≠ 0 := Nat.cast_ne_zero.mpr (by omega)
          exact div_mul_cancel₀ _ hlen
      · rcases pyMedian_spec _ hne with ⟨md, hmd, sorted, hperm, hsorted, hval⟩
        refine ⟨md, ?_, sorted, hperm, hsorted, hval⟩
        show (if ((nonEmptyStripped (fieldValues ans fid)).filterMap
            parse).isEmpty then none
          else pyMedian ((nonEmptyStripped (fieldValues ans fid)).filterMap
            parse)) = some md
        rw [hE, if_neg Bool.false_ne_true, hmd]
  · constructor
    · intro hnil
      show (if ((nonEmptyStripped (fieldValues ans fid)).filter
          (fun v => (parse v).isNone)).isEmpty then none else _) = none
      rw [hnil]
      rfl
    · intro hne
      have hE : ((nonEmptyStripped (fieldValues ans fid)).filter
          (fun v => (parse v).isNone)).isEmpty = false := by
        cases hE : ((nonEmptyStripped (fieldValues ans fid)).filter
            (fun v => (parse v).isNone)).isEmpty
        · rfl
        · exact absurd (List.isEmpty_iff.mp hE) hne
      rcases mostCommon_spec 10 ((nonEmptyStripped (fieldValues ans fid)).filter
          (fun v => (parse v).isNone)) with ⟨hlen, hnd, hmem2, hsort, hdrop⟩
      refine ⟨_, ?_, hlen, hnd, hmem2, hsort, hdrop⟩
      show (if ((nonEmptyStripped (fieldValues ans fid)).filter
          (fun v => (parse v).isNone)).isEmpty then none
        else some (mostCommon 10 _)) = some _
      rw [hE, if_neg Bool.false_ne_true]

/-- Witness for C5: on the fixture answers, field 10's values
`["3","5","4"]` yield count 3, min 3, max 5, mean 4, median 4, and field
20's values `["red","blue","red"]` yield
`top_values = [("red", 2), ("blue", 1)]`. -/
theorem summary_field_statistics_witness :
    10 ∈ c5answers.map (fun a => a.field_id) ∧
    fieldValues c5answers 10 = ["3", "5", "4"] ∧
    fieldValues c5answers 20 = ["red", "blue", "red"] ∧
    (buildFieldSummary exampleParse ["3", "5", "4"]).count = some 3 ∧
    (buildFieldSummary exampleParse ["3", "5", "4"]).min = some 3 ∧
    (buildFieldSummary exampleParse ["3", "5", "4"]).max = some 5 ∧
    (buildFieldSummary exampleParse ["3", "5", "4"]).mean = some 4 ∧
    (buildFieldSummary exampleParse ["3", "5", "4"]).median = some 4 ∧
    (buildFieldSummary exampleParse ["red", "blue", "red"]).top_values =
      some [("red", 2), ("blue", 1)] ∧
    (∃ s, (10, s) ∈ buildSummaryFields exampleParse c5answers ∧
      s = buildFieldSummary exampleParse (fieldValues c5answers 10) ∧
      List.Perm (nonEmptyStripped (fieldValues c5answers 10))
        (((nonEmptyStripped (fieldValues c5answers 10)).filter
            (fun v => (exampleParse v).isSome)) ++
         ((nonEmptyStripped (fieldValues c5answers 10)).filter
            (fun v => (exampleParse v).isNone))) ∧
      NumericStatsOk
        ((nonEmptyStripped (fieldValues c5answers 10)).filterMap exampleParse)
        s ∧
      TopValuesOk
        ((nonEmptyStripped (fieldValues c5answers 10)).filter
          (fun v => (exampleParse v).isNone)) s) := by
  refine ⟨by decide, rfl, rfl, rfl, rfl, rfl, ?_, rfl, rfl,
    summary_field_statistics exampleParse c5answers 10 (by decide)⟩
  have h1 : (buildFieldSummary exampleParse ["3", "5", "4"]).mean =
      some (([(3 : ℚ), 5, 4]).sum / (([(3 : ℚ), 5, 4]).length : ℚ)) := rfl
  rw [h1]
  norm_num

end Formify
